import Mathlib

/-!
# Verification of the diffsol BDF core against its specification

Shallow embedding, over `ℚ` (models IEEE doubles; every operation used by the
claims is exact field arithmetic except where noted), of:

* the vector operations of `src/vector/mod.rs` (weighted squared norm modelled
  from the spec, see `squared_norm`);
* the Newton convergence controller `src/nonlinear_solver/convergence.rs`;
* the sparse CSC matrix operations of `src/matrix/sparse_serial.rs`;
* the BDF integrator of `src/ode_solver/bdf.rs` (`_compute_r`,
  `_update_step_size`, `_update_diff`, `error_control`, the step attempt loop,
  `interpolate`, `handle_tstop`, `set_stop_time`, `set_state`).

External collaborators (the injected nonlinear solver `Nls`, the user operators
`out`/`root`, the `BdfCallable` quadrature helper `integrate_out`, and the f64
`powf` intrinsic used only with irrational exponents) are modelled as oracle
parameters: every theorem quantifies over them, so each proved statement holds
for every behaviour the external component can exhibit.
-/

set_option maxHeartbeats 1600000

namespace Diffsol

/-- A state vector: dense container of scalars (`src/vector/mod.rs`). -/
abbrev Vec := List ℚ

/-- `f64::EPSILON` (`V::T::EPSILON` in the source), exactly `2⁻⁵²`. -/
def eps : ℚ := 1 / 2 ^ 52

/-- Component-wise sum of two vectors. -/
def vadd (a b : Vec) : Vec := List.zipWith (fun x y => x + y) a b

/-- Component-wise difference of two vectors. -/
def vsub (a b : Vec) : Vec := List.zipWith (fun x y => x - y) a b

/-- Scalar multiple of a vector (`v * scale(c)` in the source). -/
def vscale (c : ℚ) (a : Vec) : Vec := a.map (fun x => c * x)

/-- `Vector::axpy(alpha, x, beta)`: `self ← alpha·x + beta·self`
(`src/vector/mod.rs`, semantics per the spec's data model). -/
def axpy (alpha : ℚ) (x : Vec) (beta : ℚ) (self : Vec) : Vec :=
  List.zipWith (fun xi si => alpha * xi + beta * si) x self

/-- Sum of the squared weighted components, the recursion underlying
`squared_norm`. -/
def wsq_sum (x y atol : List ℚ) (rtol : ℚ) : ℚ :=
  match x, y, atol with
  | xi :: xs, yi :: ys, ai :: atl => (xi / (ai + rtol * |yi|)) ^ 2 + wsq_sum xs ys atl rtol
  | _, _, _ => 0

/-- Modelled from the spec: `Vector::squared_norm` (implemented in
`src/vector/serial.rs`, which is not part of the provided sources).  The spec
defines the weighted squared norm as
`‖x‖²_w(y,a,r) = (1/n) · Σᵢ (xᵢ / (aᵢ + r·|yᵢ|))²`. -/
def squared_norm (x y atol : Vec) (rtol : ℚ) : ℚ :=
  wsq_sum x y atol rtol / (x.length : ℚ)

/-! ## The BDF change-of-step-size matrix (`Bdf::_compute_r`) -/

/-- `Bdf::_compute_r` (src/ode_solver/bdf.rs lines 266-290): entry `(i, j)` of
the matrix `R(factor)`.  Row 0 is all ones; column 0 below row 0 stays at its
zero initialisation (the inner source loop starts at `j = 1`); otherwise
`r[i,j] = r[i-1,j] * (i - 1 - factor*j) / i`.  Generic over the scalar field so
the same definition serves the executable `ℚ` model and the real-valued
theorems. -/
def _compute_r {K : Type} [Field K] (factor : K) (i j : ℕ) : K :=
  if i = 0 then 1
  else if j = 0 then 0
  else _compute_r factor (i - 1) j * ((i : K) - 1 - factor * (j : K)) / (i : K)
termination_by i
decreasing_by exact Nat.sub_lt (Nat.pos_of_ne_zero (by assumption)) Nat.one_pos

/-- Entry `(i, j)` of the product `R(factor) · U` restricted to the leading
`(order+1) × (order+1)` block — the matrix `ru = r.mat_mul(&self.u)` that
`_update_step_size` applies to the difference matrices. -/
def ruEntry {K : Type} [Field K] (order : ℕ) (factor : K) (u : ℕ → ℕ → K)
    (i j : ℕ) : K :=
  ∑ m ∈ Finset.range (order + 1), _compute_r factor i m * u m j

/-- The solver's `u` field as initialised in `Bdf::new` and reset on every
order change: `U = _compute_r(order, 1)` (the materialised size plays no role
for the entries, which do not depend on `order`). -/
def bdfInitU : ℕ → ℕ → ℚ := _compute_r 1

/-! ## Convergence controller (`src/nonlinear_solver/convergence.rs`) -/

/-- The state of `Convergence<V>`. -/
structure Convergence where
  rtol : ℚ
  atol : Vec
  tol : ℚ
  max_iter : ℕ
  iter : ℕ
  old_norm : Option ℚ
deriving Repr

/-- `ConvergenceStatus`. -/
inductive ConvergenceStatus where
  | Converged
  | Diverged
  | Continue
  | MaximumIterations
deriving DecidableEq, Repr

/-- `Convergence::check_new_iteration` (lines 55-91).  The caller computes
`norm = dy.squared_norm(y, atol, rtol).sqrt()`; since square roots leave `ℚ`,
the embedding takes that weighted norm `norm` as its argument and the decision
logic below is translated verbatim.  The two guards that the source writes as
`rate / (1 - rate) * norm < tol` and
`rate^(max_iter - iter) / (1 - rate) * norm > tol` are embedded multiplied
through by `(1 - rate)`, which is positive on every path that reaches them with
`rate < 1`; at `rate = 1` exactly, IEEE division by zero makes the source's
first comparison `∞ < tol = false` and the second `∞ > tol = true` (as
`norm > EPSILON > 0`), which is precisely what the cross-multiplied forms give,
so the embedding agrees with the f64 code on all inputs with a positive
recorded previous norm. -/
def check_new_iteration (c : Convergence) (norm : ℚ) :
    ConvergenceStatus × Convergence :=
  if norm ≤ eps then (ConvergenceStatus.Converged, c)
  else
    let after :=
      let c2 : Convergence := { c with iter := c.iter + 1, old_norm := some norm }
      if c2.iter ≥ c2.max_iter then (ConvergenceStatus.MaximumIterations, c2)
      else (ConvergenceStatus.Continue, c2)
    match c.old_norm with
    | none => after
    | some old_norm =>
      let rate := norm / old_norm
      if 1 < rate then (ConvergenceStatus.Diverged, c)
      else if rate * norm < c.tol * (1 - rate) then (ConvergenceStatus.Converged, c)
      else if c.tol * (1 - rate) < rate ^ (c.max_iter - c.iter) * norm then
        (ConvergenceStatus.Diverged, c)
      else after

/-! ## Sparse CSC matrices (`src/matrix/sparse_serial.rs`) -/

/-- `nalgebra_sparse::pattern::SparsityPattern`: column-major offsets plus row
indices. -/
structure SparsityPattern where
  major_dim : ℕ
  minor_dim : ℕ
  major_offsets : List ℕ
  minor_indices : List ℕ
deriving DecidableEq, Repr

/-- `SparsityPattern::lane(j)`: the row indices stored for column `j`
(`minor_indices[major_offsets[j] .. major_offsets[j+1]]`). -/
def SparsityPattern.lane (p : SparsityPattern) (j : ℕ) : List ℕ :=
  let o := p.major_offsets.getD j 0
  let n := p.major_offsets.getD (j + 1) p.minor_indices.length
  (p.minor_indices.drop o).take (n - o)

/-- `MatrixSparsity::indices` for `SparsityPattern` (lines 56-69): enumerate
the stored `(row, column)` pairs, walking `major_offsets` and taking the final
offset to be `minor_indices.len()` when absent. -/
def SparsityPattern.indices (p : SparsityPattern) : List (ℕ × ℕ) :=
  (List.range p.major_offsets.length).flatMap fun j =>
    let offset := p.major_offsets.getD j 0
    let next := p.major_offsets.getD (j + 1) p.minor_indices.length
    (List.range (next - offset)).map fun k =>
      (p.minor_indices.getD (offset + k) 0, j)

/-- Validation failures of the `nalgebra-sparse` pattern constructor. -/
inductive SparseFormatError where
  | InvalidOffsetsLength
  | InvalidFirstOffset
  | NonmonotonicOffsets
  | InvalidLastOffset
  | MinorIndexOutOfBounds
  | NonmonotonicMinorIndices
deriving DecidableEq, Repr

/-- Boolean check that consecutive entries are related by `le` (`true`) or by
`lt` (`false` means strictness is demanded on the respective uses below). -/
def chain_le : List ℕ → Bool
  | a :: b :: rest => decide (a ≤ b) && chain_le (b :: rest)
  | _ => true

/-- Boolean check that a list of indices is strictly increasing. -/
def chain_lt : List ℕ → Bool
  | a :: b :: rest => decide (a < b) && chain_lt (b :: rest)
  | _ => true

/-- Modelled from the contract of the external dependency
`nalgebra_sparse::pattern::SparsityPattern::try_from_offsets_and_indices`: the
constructor validates, in this order, that `major_offsets` has exactly
`major_dim + 1` entries beginning with 0, that the offsets are monotonically
non-decreasing and end at `minor_indices.len()`, that every minor index is in
bounds, and that the indices of each lane are strictly increasing. -/
def try_from_offsets_and_indices (major_dim minor_dim : ℕ)
    (major_offsets minor_indices : List ℕ) :
    Except SparseFormatError SparsityPattern :=
  if major_offsets.length ≠ major_dim + 1 then
    Except.error SparseFormatError.InvalidOffsetsLength
  else if major_offsets.headD 0 ≠ 0 then
    Except.error SparseFormatError.InvalidFirstOffset
  else if ¬ chain_le major_offsets then
    Except.error SparseFormatError.NonmonotonicOffsets
  else if major_offsets.getLastD 0 ≠ minor_indices.length then
    Except.error SparseFormatError.InvalidLastOffset
  else if ¬ minor_indices.all (fun i => i < minor_dim) then
    Except.error SparseFormatError.MinorIndexOutOfBounds
  else
    let p : SparsityPattern :=
      { major_dim := major_dim, minor_dim := minor_dim,
        major_offsets := major_offsets, minor_indices := minor_indices }
    if ¬ (List.range major_dim).all (fun j => chain_lt (p.lane j)) then
      Except.error SparseFormatError.NonmonotonicMinorIndices
    else Except.ok p

/-- `MatrixSparsity::union` for `SparsityPattern` (lines 71-98): per column the
row sets of the two lanes are merged through a `HashSet` and appended to
`minor_indices`, with the running offset pushed onto `major_offsets` before
each column; the result is then passed to `try_from_offsets_and_indices`.  The
`HashSet` iteration order is arbitrary; it is modelled as first-occurrence
deduplication of the concatenated lanes, and no theorem below depends on that
choice. -/
def union_fold (a b : SparsityPattern) (acc : List ℕ × List ℕ) (j : ℕ) :
    List ℕ × List ℕ :=
  let lane := (a.lane j ++ b.lane j).dedup
  (acc.1 ++ [acc.2.length], acc.2 ++ lane)

/-- The union itself: fold `union_fold` over the columns and hand the built
offsets and indices to the pattern constructor.  Note the source pushes one
offset per column and never the final offset. -/
def SparsityPattern.union (a b : SparsityPattern) :
    Except SparseFormatError SparsityPattern :=
  let built := (List.range a.major_dim).foldl (union_fold a b) ([], [])
  try_from_offsets_and_indices a.major_dim a.minor_dim built.1 built.2

/-- A sparse CSC matrix: a sparsity pattern plus the value buffer. -/
structure CscMatrix where
  pattern : SparsityPattern
  values : List ℚ
deriving DecidableEq, Repr

/-- Add `q` to component `i` of a vector. -/
def addAt (v : Vec) (i : ℕ) (q : ℚ) : Vec := v.set i (v.getD i 0 + q)

/-- The sparse matrix-vector product `self * x` provided by `nalgebra-sparse`
(external dependency): `y[row] += values[k] * x[j]` over every stored entry
`k` of every column `j`. -/
def cscMulVec (m : CscMatrix) (x : Vec) : Vec :=
  (List.range m.pattern.major_dim).foldl
    (fun y j =>
      let o := m.pattern.major_offsets.getD j 0
      let lane := m.pattern.lane j
      (List.range lane.length).foldl
        (fun y k => addAt y (lane.getD k 0) (m.values.getD (o + k) 0 * x.getD j 0))
        y)
    (List.replicate m.pattern.minor_dim 0)

/-- `Matrix::gemv` for `CscMatrix` (lines 183-188), translated verbatim:
`tmp = self * x; tmp *= alpha; y.axpy(alpha, &tmp, beta)`. -/
def gemv (m : CscMatrix) (alpha : ℚ) (x : Vec) (beta : ℚ) (y : Vec) : Vec :=
  let tmp := cscMulVec m x
  let tmp2 := vscale alpha tmp
  axpy alpha tmp2 beta y

/-- The specified behaviour of `gemv` (spec §3: `gemv(α, x, β, y)` updates
`y ← α·M·x + β·y`), stated as its own definition for comparison with the
source translation above. -/
def gemvSpec (m : CscMatrix) (alpha : ℚ) (x : Vec) (beta : ℚ) (y : Vec) : Vec :=
  vadd (vscale alpha (cscMulVec m x)) (vscale beta y)

/-! ## BDF integrator model (`src/ode_solver/bdf.rs`)

The solver state and step machinery, translated from the source.  Difference
matrices are modelled as functions `ℕ → Vec` from column index to column (the
source stores dense matrices with `MAX_ORDER + 3 = 8` columns and only ever
touches columns the model also touches). -/

/-- `kappa`: the NDF κ values of `Bdf::new` (Table 1 of Byrne & Hindmarsh),
`[0, -0.1850, -1/9, -0.0823, -0.0415, 0]`. -/
def kappa (i : ℕ) : ℚ :=
  [0, -(1850 / 10000), -(1 / 9), -(823 / 10000), -(415 / 10000), 0].getD i 0

/-- `gamma` as built in `Bdf::new`: `gamma[0] = 0`, `gamma[i] = gamma[i-1] + 1/i`. -/
def gammaBdf : ℕ → ℚ
  | 0 => 0
  | i + 1 => gammaBdf i + 1 / ((i : ℚ) + 1)

/-- `alpha` as built in `Bdf::new`: `alpha[0] = 0`,
`alpha[i] = 1 / ((1 - kappa[i]) * gamma[i])`. -/
def alphaBdf : ℕ → ℚ
  | 0 => 0
  | i + 1 => 1 / ((1 - kappa (i + 1)) * gammaBdf (i + 1))

/-- `error_const2` as built in `Bdf::new`: `error_const2[0] = 1`,
`error_const2[i] = (kappa[i]*gamma[i] + 1/(i+1))²`. -/
def error_const2 : ℕ → ℚ
  | 0 => 1
  | i + 1 => (kappa (i + 1) * gammaBdf (i + 1) + 1 / ((i : ℚ) + 2)) ^ 2

/-- `Bdf::NEWTON_MAXITER`. -/
def NEWTON_MAXITER : ℕ := 4
/-- `Bdf::MIN_FACTOR`. -/
def MIN_FACTOR : ℚ := 5 / 10
/-- `Bdf::MAX_FACTOR`. -/
def MAX_FACTOR : ℚ := 21 / 10
/-- `Bdf::MAX_THRESHOLD`. -/
def MAX_THRESHOLD : ℚ := 2
/-- `Bdf::MIN_THRESHOLD`. -/
def MIN_THRESHOLD : ℚ := 9 / 10
/-- `Bdf::MIN_TIMESTEP = 1e-32`. -/
def MIN_TIMESTEP : ℚ := 1 / 10 ^ 32
/-- `BdfState::MAX_ORDER`. -/
def MAX_ORDER : ℕ := 5

/-- `BdfState<V, M>`: the observable solver state. -/
structure BdfState where
  y : Vec
  dy : Vec
  g : Vec
  dg : Vec
  s : List Vec
  ds : List Vec
  sg : List Vec
  dsg : List Vec
  t : ℚ
  h : ℚ
  order : ℕ
  diff : ℕ → Vec
  gdiff : ℕ → Vec
  sdiff : List (ℕ → Vec)
  sgdiff : List (ℕ → Vec)

/-- `BdfStatistics`. -/
structure BdfStatistics where
  number_of_steps : ℕ := 0
  number_of_error_test_failures : ℕ := 0
  number_of_nonlinear_solver_iterations : ℕ := 0
  number_of_nonlinear_solver_fails : ℕ := 0
deriving DecidableEq, Repr

/-- The fields of `OdeSolverProblem` and of the augmented equations (`s_op`)
that the BDF step consults.  The `sens_*` fields reproduce the flags queried
through `self.s_op.as_ref().unwrap().eqn()` (`has_sens` is `s_op.is_some()`). -/
structure BdfProblem where
  rtol : ℚ
  atol : Vec
  out_rtol : Option ℚ
  out_atol : Option Vec
  integrate_out : Bool
  has_out : Bool
  has_root : Bool
  has_sens : Bool
  naug : ℕ
  sens_rtol : Option ℚ
  sens_atol : Option Vec
  sens_include_in_error_control : Bool
  sens_has_out : Bool
  sens_out_rtol : Option ℚ
  sens_out_atol : Option Vec
  sens_include_out_in_error_control : Bool

/-- `OdeSolverProblem::output_in_error_control` (src/ode_solver/problem.rs
lines 127-132). -/
def BdfProblem.output_in_error_control (p : BdfProblem) : Bool :=
  p.integrate_out && p.has_out && p.out_rtol.isSome && p.out_atol.isSome

/-- The mutable fields of the `Bdf` solver struct. -/
structure Bdf where
  state : BdfState
  n_equal_steps : ℕ
  u : ℕ → ℕ → ℚ
  tstop : Option ℚ
  is_state_modified : Bool
  y_delta : Vec
  g_delta : Vec
  s_deltas : List Vec
  sg_deltas : List Vec
  y_predict : Vec
  t_predict : ℚ
  s_predict : Vec
  statistics : BdfStatistics

/-- Error values surfaced by the solver (`DiffsolError` /
`OdeSolverError`). `OutOfFuel` is the artificial value returned when the
fuel-indexed model of the retry loop runs out; it never accompanies a
successful step. -/
inductive SolverError where
  | StepSizeTooSmall
  | StopTimeBeforeCurrentTime
  | InterpolationTimeAfterCurrentTime
  | InterpolationTimeOutsideCurrentStep
  | SensitivitySolveFailed
  | NewtonDidNotConverge
  | OutOfFuel
deriving DecidableEq, Repr

/-- `OdeSolverStopReason`. -/
inductive StopReason where
  | InternalTimestep
  | RootFound (t : ℚ)
  | TstopReached
deriving DecidableEq, Repr

/-- Outcome of `Bdf::step`: `Ok(reason)`, `Err(e)`, or a Rust panic (the
`.unwrap()` on `handle_tstop` at the end of `step`). -/
inductive StepRes where
  | ok (r : StopReason)
  | err (e : SolverError)
  | panic
deriving DecidableEq, Repr

/-- The external collaborators of the BDF step, as oracle functions.  `solve`
and `sens_solve` model the injected Newton nonlinear solver
(`Nls::solve_in_place`, indexed by the running attempt counter and, for
sensitivities, the augmented-equation index), returning the solution the
solver left in its in-out argument plus the convergence iteration count;
`powf` models `f64::powf` (used only with irrational exponents, so it stays a
parameter); `out_call`/`integrate_out_call` model the user output operator and
`BdfCallable::integrate_out`; `root` models `RootFinder::check_root`. -/
structure Oracles where
  powf : ℚ → ℚ → ℚ
  solve : ℕ → Option Vec × ℕ
  sens_solve : ℕ → ℕ → Option (Vec × ℕ)
  out_call : Vec → ℚ → Vec
  integrate_out_call : Vec → (ℕ → Vec) → ℕ → Vec
  sens_out_call : ℕ → Vec → ℚ → Vec
  sens_integrate_out_call : ℕ → Vec → (ℕ → Vec) → ℕ → Vec
  root : BdfState → Option ℚ

/-- `Bdf::_predict_using_diff` (lines 448-453): fill with zero, then add
columns `0 ..= order` of the difference matrix. -/
def _predict_using_diff (diff : ℕ → Vec) (order : ℕ) : Vec :=
  (List.range (order + 1)).foldl (fun acc i => vadd acc (diff i))
    (List.replicate (diff 0).length 0)

/-- One pass of `diff.column_axpy(1, i+1, 1, i)`: column `i` becomes
`column (i+1) + column i`. -/
def column_axpy_add (diff : ℕ → Vec) (i : ℕ) : ℕ → Vec :=
  Function.update diff i (vadd (diff (i + 1)) (diff i))

/-- The downward loop of `Bdf::_update_diff`:
`for i in (0..=top).rev() { diff.column_axpy(1, i+1, 1, i) }`. -/
def add_columns_down (diff : ℕ → Vec) : ℕ → ℕ → Vec
  | 0 => column_axpy_add diff 0
  | i + 1 => add_columns_down (column_axpy_add diff (i + 1)) i

/-- `Bdf::_update_diff` (lines 427-445): `diff[:,order+2] = d - diff[:,order+1]`;
`diff[:,order+1] = d`; then the downward accumulation loop. -/
def _update_diff (order : ℕ) (d : Vec) (diff : ℕ → Vec) : ℕ → Vec :=
  let d_minus_order_plus_one := vsub d (diff (order + 1))
  let diff1 := Function.update diff (order + 2) d_minus_order_plus_one
  let diff2 := Function.update diff1 (order + 1) d
  add_columns_down diff2 order

/-- `Σ_{l ≤ top} c(l) · column l`, the column linear combination taken by the
`gemm_vo` call of `_update_diff_for_step_size`. -/
def diff_lin_comb (diff : ℕ → Vec) (c : ℕ → ℚ) : ℕ → Vec
  | 0 => vscale (c 0) (diff 0)
  | l + 1 => vadd (diff_lin_comb diff c l) (vscale (c (l + 1)) (diff (l + 1)))

/-- `Bdf::_update_diff_for_step_size` (lines 350-359):
`D[0..=order] = D[0..=order] * RU` (columns beyond `order` untouched). -/
def _update_diff_for_step_size (ru : ℕ → ℕ → ℚ) (order : ℕ)
    (diff : ℕ → Vec) : ℕ → Vec :=
  fun j => if j ≤ order then diff_lin_comb diff (fun l => ru l j) order else diff j

/-- `Bdf::_update_step_size` (lines 310-348): rescale every difference matrix
by `R(factor)·U`, reset `n_equal_steps`, install the new step size, and only
then fail with `StepSizeTooSmall` if `|new_h| < MIN_TIMESTEP`.  Like the Rust
method (which mutates `self` before returning the error), the model returns
the mutated solver together with the optional error. -/
def _update_step_size (cfg : BdfProblem) (factor : ℚ) (b : Bdf) :
    Bdf × Option SolverError :=
  let new_h := factor * b.state.h
  let order := b.state.order
  let ru := ruEntry order factor b.u
  let st := b.state
  let st2 := { st with
    diff := _update_diff_for_step_size ru order st.diff
    sdiff := st.sdiff.map (_update_diff_for_step_size ru order)
    gdiff := if cfg.integrate_out then _update_diff_for_step_size ru order st.gdiff
             else st.gdiff
    sgdiff := st.sgdiff.map (_update_diff_for_step_size ru order)
    h := new_h }
  let b2 := { b with n_equal_steps := 0, state := st2 }
  if |new_h| < MIN_TIMESTEP then (b2, some SolverError.StepSizeTooSmall)
  else (b2, none)

/-- The accumulating interpolation loop of `Bdf::interpolate_from_diff`,
returning `(time_factor, order_summation)` after `i` iterations. -/
def interpolate_go (t : ℚ) (diff : ℕ → Vec) (t1 h : ℚ) : ℕ → ℚ × Vec
  | 0 => (1, diff 0)
  | i + 1 =>
    let p := interpolate_go t diff t1 h i
    let tf := p.1 * ((t - (t1 - h * (i : ℚ))) / (h * (1 + (i : ℚ))))
    (tf, vadd p.2 (vscale tf (diff (i + 1))))

/-- `Bdf::interpolate_from_diff` (lines 526-535). -/
def interpolate_from_diff (t : ℚ) (diff : ℕ → Vec) (t1 h : ℚ) (order : ℕ) : Vec :=
  (interpolate_go t diff t1 h order).2

/-- `OdeSolverMethod::interpolate` for `Bdf` (lines 733-755).  The Rust method
takes `&self`; the model is likewise a pure function of the solver. -/
def interpolate (b : Bdf) (t : ℚ) : Except SolverError Vec :=
  if b.is_state_modified then
    if t = b.state.t then Except.ok b.state.y
    else Except.error SolverError.InterpolationTimeOutsideCurrentStep
  else if (0 < b.state.h ∧ b.state.t < t) ∨ (¬ 0 < b.state.h ∧ t < b.state.t) then
    Except.error SolverError.InterpolationTimeAfterCurrentTime
  else
    Except.ok (interpolate_from_diff t b.state.diff b.state.t b.state.h b.state.order)

/-- `OdeSolverMethod::interpolate_out` for `Bdf` (lines 757-779). -/
def interpolate_out (b : Bdf) (t : ℚ) : Except SolverError Vec :=
  if b.is_state_modified then
    if t = b.state.t then Except.ok b.state.g
    else Except.error SolverError.InterpolationTimeOutsideCurrentStep
  else if (0 < b.state.h ∧ b.state.t < t) ∨ (¬ 0 < b.state.h ∧ t < b.state.t) then
    Except.error SolverError.InterpolationTimeAfterCurrentTime
  else
    Except.ok (interpolate_from_diff t b.state.gdiff b.state.t b.state.h b.state.order)

/-- `OdeSolverMethod::interpolate_sens` for `Bdf` (lines 781-808). -/
def interpolate_sens (b : Bdf) (t : ℚ) : Except SolverError (List Vec) :=
  if b.is_state_modified then
    if t = b.state.t then Except.ok b.state.s
    else Except.error SolverError.InterpolationTimeOutsideCurrentStep
  else if (0 < b.state.h ∧ b.state.t < t) ∨ (¬ 0 < b.state.h ∧ t < b.state.t) then
    Except.error SolverError.InterpolationTimeAfterCurrentTime
  else
    Except.ok ((List.range b.state.s.length).map fun i =>
      interpolate_from_diff t (b.state.sdiff.getD i (fun _ => [])) b.state.t
        b.state.h b.state.order)

/-- `OdeSolverMethod::set_state` for `Bdf` (lines 728-731). -/
def set_state (b : Bdf) (st : BdfState) : Bdf :=
  { b with state := st, is_state_modified := true }

/-- The effect of `OdeSolverMethod::state_mut` for `Bdf` (lines 822-825) on
the solver: handing out the mutable view sets `is_state_modified`. -/
def state_mut (b : Bdf) : Bdf :=
  { b with is_state_modified := true }

/-- `Bdf::handle_tstop` (lines 473-504).  Returns the mutated solver together
with `Ok(Option<reason>)` or the error (the source mutates `self.tstop` before
returning in both special branches, and ignores a possible step-size error in
the clipping branch). -/
def handle_tstop (cfg : BdfProblem) (tstop : ℚ) (b : Bdf) :
    Bdf × Except SolverError (Option StopReason) :=
  let troundoff := 100 * eps * (|b.state.t| + |b.state.h|)
  if |b.state.t - tstop| ≤ troundoff then
    ({ b with tstop := none }, Except.ok (some StopReason.TstopReached))
  else if (0 < b.state.h ∧ tstop < b.state.t - troundoff) ∨
      (b.state.h < 0 ∧ b.state.t + troundoff < tstop) then
    ({ b with tstop := none }, Except.error SolverError.StopTimeBeforeCurrentTime)
  else if (0 < b.state.h ∧ tstop + troundoff < b.state.t + b.state.h) ∨
      (b.state.h < 0 ∧ b.state.t + b.state.h < tstop - troundoff) then
    let factor := (tstop - b.state.t) / b.state.h
    ((_update_step_size cfg factor b).1, Except.ok none)
  else (b, Except.ok none)

/-- `OdeSolverMethod::set_stop_time` for `Bdf` (lines 1071-1082): store the
stop time, then consult `handle_tstop`; a `TstopReached` answer means the stop
time is at (or behind) the current time, so it is converted into the
`StopTimeBeforeCurrentTime` error and the stored stop time is cleared. -/
def set_stop_time (cfg : BdfProblem) (t : ℚ) (b : Bdf) : Bdf × Option SolverError :=
  let b1 := { b with tstop := some t }
  match handle_tstop cfg t b1 with
  | (b2, Except.ok (some StopReason.TstopReached)) =>
    ({ b2 with tstop := none }, some SolverError.StopTimeBeforeCurrentTime)
  | (b2, Except.ok _) => (b2, none)
  | (b2, Except.error e) => (b2, some e)

/-- `Bdf::error_control` (lines 537-589): weighted squared error norm of the
latest deltas, over the `y` channel and every error-controlled output /
sensitivity channel, averaged over the number of contributions.  The source
`unwrap()`s tolerances guarded by the corresponding `is_some` flags; the model
reads them with defaults under the same guards. -/
def error_control (cfg : BdfProblem) (b : Bdf) : ℚ :=
  let st := b.state
  let order := st.order
  let output_in_error_control := cfg.output_in_error_control
  let integrate_sens := cfg.has_sens
  let sens_in_error_control := integrate_sens && cfg.sens_include_in_error_control
  let integrate_sens_out := integrate_sens && cfg.sens_has_out
  let sens_output_in_error_control :=
    integrate_sens_out && cfg.sens_include_out_in_error_control
  let en0 := squared_norm b.y_delta st.y cfg.atol cfg.rtol * error_const2 (order - 1)
  let p1 : ℚ × ℕ :=
    if output_in_error_control then
      (en0 + squared_norm b.g_delta st.g (cfg.out_atol.getD []) (cfg.out_rtol.getD 0)
          * error_const2 order, 2)
    else (en0, 1)
  let p2 : ℚ × ℕ :=
    if sens_in_error_control then
      ((List.range st.sdiff.length).foldl (fun acc i =>
          acc + squared_norm (b.s_deltas.getD i []) (st.s.getD i [])
            (cfg.sens_atol.getD []) (cfg.sens_rtol.getD 0) * error_const2 order)
        p1.1, p1.2 + st.sdiff.length)
    else p1
  let p3 : ℚ × ℕ :=
    if sens_output_in_error_control then
      ((List.range st.sgdiff.length).foldl (fun acc i =>
          acc + squared_norm (b.sg_deltas.getD i []) (st.sg.getD i [])
            (cfg.sens_out_atol.getD []) (cfg.sens_out_rtol.getD 0) * error_const2 order)
        p2.1, p2.2 + st.sgdiff.length)
    else p2
  p3.1 / (p3.2 : ℚ)

/-- `Bdf::predict_error_control` (lines 591-652): like `error_control` but on
column `order+1` of each difference matrix for a candidate `order`.  The
source adds the sensitivity contributions without incrementing `ncontrib`;
translated as written. -/
def predict_error_control (cfg : BdfProblem) (b : Bdf) (order : ℕ) : ℚ :=
  let st := b.state
  let output_in_error_control := cfg.output_in_error_control
  let integrate_sens := cfg.has_sens
  let sens_in_error_control := integrate_sens && cfg.sens_include_in_error_control
  let integrate_sens_out := integrate_sens && cfg.sens_has_out
  let sens_output_in_error_control :=
    integrate_sens_out && cfg.sens_include_out_in_error_control
  let en0 := squared_norm (st.diff (order + 1)) st.y cfg.atol cfg.rtol
      * error_const2 order
  let p1 : ℚ × ℕ :=
    if output_in_error_control then
      (en0 + squared_norm (st.gdiff (order + 1)) st.g (cfg.out_atol.getD [])
          (cfg.out_rtol.getD 0) * error_const2 order, 2)
    else (en0, 1)
  let en2 :=
    if sens_in_error_control then
      (List.range st.sdiff.length).foldl (fun acc i =>
          acc + squared_norm ((st.sdiff.getD i (fun _ => [])) (order + 1))
            (st.s.getD i []) (cfg.sens_atol.getD []) (cfg.sens_rtol.getD 0)
            * error_const2 order)
        p1.1
    else p1.1
  let en3 :=
    if sens_output_in_error_control then
      (List.range st.sgdiff.length).foldl (fun acc i =>
          acc + squared_norm ((st.sgdiff.getD i (fun _ => [])) (order + 1))
            (st.sg.getD i []) (cfg.sens_out_atol.getD []) (cfg.sens_out_rtol.getD 0)
            * error_const2 order)
        en2
    else en2
  en3 / (p1.2 : ℚ)

/-- `Bdf::calculate_output_delta` (lines 361-374): evaluate the output
operator at the prediction and integrate it (`gamma`, `alpha` and `order` are
passed to the external `BdfCallable::integrate_out`, absorbed by the oracle). -/
def calculate_output_delta (o : Oracles) (b : Bdf) : Bdf :=
  let dg := o.out_call b.y_predict b.t_predict
  let st := { b.state with dg := dg }
  { b with state := st,
           g_delta := o.integrate_out_call dg st.gdiff st.order }

/-- `Bdf::calculate_sens_output_delta` (lines 376-391). -/
def calculate_sens_output_delta (o : Oracles) (b : Bdf) (i : ℕ) : Bdf :=
  let si := b.state.s.getD i []
  let dsg_i := o.sens_out_call i si b.t_predict
  let st := { b.state with dsg := b.state.dsg.set i dsg_i }
  { b with state := st,
           sg_deltas := b.sg_deltas.set i (o.sens_integrate_out_call i dsg_i
             (st.sgdiff.getD i (fun _ => [])) st.order) }

/-- The per-index loop of `Bdf::sensitivity_solve` (lines 654-710), iterating
over the remaining augmented indices.  Each successful solve installs the
solution into `state.s[i]`, records the correction in `s_deltas[i]`, adds the
solver's iteration count to the statistics and remembers it (it is what
`convergence().niter()` reports afterwards); the first failure aborts (the
`?` in the source), with the prediction standing in for whatever iterate the
failed Newton solve left in `state.s[i]` (no claim observes that value). -/
def sensitivity_solve_go (cfg : BdfProblem) (o : Oracles) (att : ℕ) :
    ℕ → ℕ → Bdf → ℕ → Bdf × Bool × ℕ
  | 0, _, b, lastN => (b, true, lastN)
  | rem + 1, i, b, lastN =>
    let order := b.state.order
    let s_predict := _predict_using_diff (b.state.sdiff.getD i (fun _ => [])) order
    let b2 := { b with s_predict := s_predict }
    match o.sens_solve att i with
    | some (s_new, niter) =>
      let stats := { b2.statistics with number_of_nonlinear_solver_iterations :=
        b2.statistics.number_of_nonlinear_solver_iterations + niter }
      let b3 := { b2 with state := { b2.state with s := b2.state.s.set i s_new },
                          statistics := stats,
                          s_deltas := b2.s_deltas.set i (vsub s_new s_predict) }
      let b4 := if cfg.sens_has_out && cfg.sens_include_out_in_error_control then
          calculate_sens_output_delta o b3 i
        else b3
      sensitivity_solve_go cfg o att rem (i + 1) b4 niter
    | none =>
      ({ b2 with state := { b2.state with s := b2.state.s.set i s_predict } },
        false, lastN)

/-- `Bdf::sensitivity_solve`: run the augmented solves for indices
`0 .. naug`; the third component is the iteration count of the last Newton
solve performed (what the shared convergence object reports to the caller). -/
def sensitivity_solve (cfg : BdfProblem) (o : Oracles) (att : ℕ) (b : Bdf)
    (niter0 : ℕ) : Bdf × Bool × ℕ :=
  sensitivity_solve_go cfg o att cfg.naug 0 b niter0

/-- `Bdf::_predict_forward` (lines 455-471): predict `y⁰` from the difference
history and advance the prediction time (the callable's `set_psi_and_y0` is
internal to the external `BdfCallable`). -/
def _predict_forward (b : Bdf) : Bdf :=
  { b with y_predict := _predict_using_diff b.state.diff b.state.order,
           t_predict := b.state.t + b.state.h }

/-- `Bdf::update_differences_and_integrate_out` (lines 393-425). -/
def update_differences_and_integrate_out (cfg : BdfProblem) (b : Bdf) : Bdf :=
  let order := b.state.order
  let st1 := { b.state with diff := _update_diff order b.y_delta b.state.diff }
  let st2 :=
    if cfg.integrate_out then
      { st1 with g := vadd (_predict_using_diff st1.gdiff order) b.g_delta,
                 gdiff := _update_diff order b.g_delta st1.gdiff }
    else st1
  let st3 :=
    if cfg.has_sens then
      (List.range cfg.naug).foldl (fun st i =>
        let sdiff2 := st.sdiff.set i
          (_update_diff order (b.s_deltas.getD i []) (st.sdiff.getD i (fun _ => [])))
        let stA := { st with sdiff := sdiff2 }
        if cfg.sens_has_out then
          let sg_i := vadd (_predict_using_diff (stA.sgdiff.getD i (fun _ => [])) order)
            (b.sg_deltas.getD i [])
          let sgdiff2 := stA.sgdiff.set i (_update_diff order (b.sg_deltas.getD i [])
            (stA.sgdiff.getD i (fun _ => [])))
          { stA with sg := stA.sg.set i sg_i, sgdiff := sgdiff2 }
        else stA) st2
    else st2
  { b with state := st3 }

/-- `Bdf::initialise_to_first_order` (lines 506-522).  The inner
`BdfState::initialise_*_to_first_order` methods live in
`src/ode_solver/state.rs`, which is not among the provided sources; their
effect is modelled from the spec (§3: at order `k` columns `0..=k+1` of each
difference matrix carry the scaled backward differences, so first order means
column 0 holds the current value, column 1 holds `h ·` its derivative, and the
order is reset to 1). -/
def initialise_to_first_order (cfg : BdfProblem) (b : Bdf) : Bdf :=
  let st := b.state
  let n := st.y.length
  let st2 := { st with
    order := 1
    diff := fun j => if j = 0 then st.y else if j = 1 then vscale st.h st.dy
            else List.replicate n 0
    gdiff := if cfg.integrate_out then
        (fun j => if j = 0 then st.g else if j = 1 then vscale st.h st.dg
         else List.replicate st.g.length 0)
      else st.gdiff
    sdiff := if cfg.has_sens then
        (List.range st.s.length).map (fun i j =>
          if j = 0 then st.s.getD i [] else if j = 1 then vscale st.h (st.ds.getD i [])
          else List.replicate n 0)
      else st.sdiff
    sgdiff := if cfg.has_sens && cfg.sens_has_out then
        (List.range st.sg.length).map (fun i j =>
          if j = 0 then st.sg.getD i [] else if j = 1 then vscale st.h (st.dsg.getD i [])
          else List.replicate (st.sg.getD i []).length 0)
      else st.sgdiff }
  { b with n_equal_steps := 0, state := st2, u := bdfInitU,
           is_state_modified := false }

/-- Outcome of one iteration of the retry loop inside `Bdf::step`:
go round again (`continue`), accept (`break`), or propagate an error
(the `?` on `_update_step_size`). -/
inductive IterOut where
  | retry (att : ℕ) (convergence_fail : Bool) (b : Bdf)
  | done (b : Bdf) (error_norm safety : ℚ)
  | fail (b : Bdf) (e : SolverError)

/-- The convergence-failure branch of the loop body (lines 901-926): count the
failure; on the first failure refresh the Jacobian (no observable state
change) and retry with the same prediction; on the second, scale `h` by 0.3
(propagating `StepSizeTooSmall`), refresh and re-predict. -/
def step_attempt_fail (cfg : BdfProblem) (att : ℕ) (convergence_fail : Bool)
    (b : Bdf) : IterOut :=
  let stats := { b.statistics with number_of_nonlinear_solver_fails :=
    b.statistics.number_of_nonlinear_solver_fails + 1 }
  let b1 := { b with statistics := stats }
  if convergence_fail then
    match _update_step_size cfg (3 / 10) b1 with
    | (b2, some e) => IterOut.fail b2 e
    | (b2, none) => IterOut.retry (att + 1) convergence_fail (_predict_forward b2)
  else IterOut.retry (att + 1) true b1

/-- The output-delta stage of the loop body (line 890-892): compute the
output delta when outputs are integrated and error-controlled. -/
def out_stage (cfg : BdfProblem) (o : Oracles) (b2 : Bdf) : Bdf :=
  if cfg.integrate_out && cfg.output_in_error_control then
    calculate_output_delta o b2
  else b2

/-- The sensitivity stage of the loop body (line 895): run
`sensitivity_solve` when augmented equations are attached. -/
def sens_stage (cfg : BdfProblem) (o : Oracles) (att : ℕ) (b3 : Bdf)
    (niter : ℕ) : Bdf × Bool × ℕ :=
  if cfg.has_sens then sensitivity_solve cfg o att b3 niter else (b3, true, niter)

/-- The error test and the rejection handling of the loop body
(lines 928-955): accept when `error_control() ≤ 1`, otherwise shrink the step
by the clamped safety factor (propagating a `StepSizeTooSmall` failure),
refresh the Jacobian, re-predict and count the error-test failure. -/
def error_test_and_reject (cfg : BdfProblem) (o : Oracles) (order : ℕ)
    (convergence_fail : Bool) (att : ℕ) (b4 : Bdf) (lastNiter : ℕ) : IterOut :=
  let error_norm := error_control cfg b4
  let maxiter : ℚ := (NEWTON_MAXITER : ℚ)
  let safety := 9 / 10 * (2 * maxiter + 1) / (2 * maxiter + (lastNiter : ℚ))
  if error_norm ≤ 1 then IterOut.done b4 error_norm safety
  else
    let factor0 := safety * o.powf error_norm (-(1 / 2) / ((order : ℚ) + 1))
    let factor := if factor0 < MIN_FACTOR then MIN_FACTOR else factor0
    match _update_step_size cfg factor b4 with
    | (b5, some e) => IterOut.fail b5 e
    | (b5, none) =>
      let b6 := _predict_forward b5
      let stats2 := { b6.statistics with number_of_error_test_failures :=
        b6.statistics.number_of_error_test_failures + 1 }
      IterOut.retry (att + 1) convergence_fail { b6 with statistics := stats2 }

/-- The successful-solve path of the loop body (lines 882-898 followed by the
error test): record the correction `y_delta = sol - y_predict`, run the
output and sensitivity stages, and either treat a sensitivity failure like a
convergence failure or proceed to the error test. -/
def step_attempt_solved (cfg : BdfProblem) (o : Oracles) (att : ℕ)
    (convergence_fail : Bool) (b1 : Bdf) (sol : Vec) (niter : ℕ) : IterOut :=
  let b2 := { b1 with y_delta := vsub sol b1.y_predict }
  match sens_stage cfg o att (out_stage cfg o b2) niter with
  | (b4, false, _) => step_attempt_fail cfg att convergence_fail b4
  | (b4, true, lastNiter) =>
    error_test_and_reject cfg o b1.state.order convergence_fail att b4 lastNiter

/-- One iteration of the `loop { ... }` inside `Bdf::step` (lines 866-956):
Newton-solve from the prediction (adding the solver's iteration count to the
statistics), then run the solved path or the failure path. -/
def step_attempt (cfg : BdfProblem) (o : Oracles) (att : ℕ)
    (convergence_fail : Bool) (b : Bdf) : IterOut :=
  let solveRes := o.solve att
  let b1 := { b with statistics := { b.statistics with
    number_of_nonlinear_solver_iterations :=
      b.statistics.number_of_nonlinear_solver_iterations + solveRes.2 } }
  match solveRes.1 with
  | none => step_attempt_fail cfg att convergence_fail b1
  | some sol => step_attempt_solved cfg o att convergence_fail b1 sol solveRes.2

/-- The solver value carried by a loop-iteration outcome (Rust's `self` after
the iteration, whichever way it ended). -/
def IterOut.solver : IterOut → Bdf
  | IterOut.retry _ _ b => b
  | IterOut.done b _ _ => b
  | IterOut.fail b _ => b

/-- The observable solver core named by the claim: current solution `y`,
derivative `dy`, time `t` and order are identical in the two solvers. -/
def core_unchanged (a b : Bdf) : Prop :=
  a.state.y = b.state.y ∧ a.state.dy = b.state.dy ∧ a.state.t = b.state.t ∧
  a.state.order = b.state.order

/-- Result of the retry loop: the accepted step's error norm and safety
factor, or the propagated error. -/
inductive LoopRes where
  | accepted (error_norm safety : ℚ)
  | failed (e : SolverError)
deriving DecidableEq, Repr

/-- The retry loop of `Bdf::step`, indexed by fuel (the Rust loop has no
bound; running out of fuel yields the artificial `OutOfFuel` error and never
an accepted step). -/
def step_attempt_loop (cfg : BdfProblem) (o : Oracles) :
    ℕ → ℕ → Bool → Bdf → Bdf × LoopRes
  | 0, _, _, b => (b, LoopRes.failed SolverError.OutOfFuel)
  | fuel + 1, att, cf, b =>
    match step_attempt cfg o att cf b with
    | IterOut.retry att2 cf2 b2 => step_attempt_loop cfg o fuel att2 cf2 b2
    | IterOut.done b2 en sf => (b2, LoopRes.accepted en sf)
    | IterOut.fail b2 e => (b2, LoopRes.failed e)

/-- The `is_state_modified` prologue of `Bdf::step` (lines 845-861):
re-initialise the history to first order and re-arm any stored stop time
(whose `set_stop_time` error propagates out of `step`). -/
def step_prepare (cfg : BdfProblem) (b : Bdf) : Bdf × Option SolverError :=
  if b.is_state_modified then
    let b1 := initialise_to_first_order cfg b
    match b1.tstop with
    | some t_stop => set_stop_time cfg t_stop b1
    | none => (b1, none)
  else (b, none)

/-- The order- and step-size-control block of `Bdf::step`
(lines 979-1046), entered after `n_equal_steps > order` successes: form the
three candidate factors for orders `k-1`, `k`, `k+1` (an unavailable order
contributes `T::INFINITY`, whose negative power is exactly 0 in IEEE
arithmetic, modelled by `none ↦ 0`), pick the last maximal one (Rust's
`max_by` keeps the later element on ties), update the order and `U`, and
rescale the step unless the factor is inside the keep-threshold band at an
unchanged order. -/
def order_control (cfg : BdfProblem) (o : Oracles) (error_norm safety : ℚ)
    (b : Bdf) : Bdf × Option SolverError :=
  let order := b.state.order
  let error_m_norm : Option ℚ :=
    if 1 < order then some (predict_error_control cfg b (order - 1)) else none
  let error_p_norm : Option ℚ :=
    if order < MAX_ORDER then some (predict_error_control cfg b (order + 1)) else none
  let factorAt : ℕ → Option ℚ → ℚ := fun i en =>
    match en with
    | some v => o.powf v (-(1 / 2) / ((i : ℚ) + (order : ℚ)))
    | none => 0
  let f0 := factorAt 0 error_m_norm
  let f1 := factorAt 1 (some error_norm)
  let f2 := factorAt 2 error_p_norm
  let max_index : ℕ :=
    if f0 ≤ f1 then (if f1 ≤ f2 then 2 else 1) else (if f0 ≤ f2 then 2 else 0)
  let new_order := match max_index with
    | 0 => order - 1
    | 1 => order
    | _ => order + 1
  let b1 := { b with state := { b.state with order := new_order },
                     u := if max_index ≠ 1 then bdfInitU else b.u }
  let fmax := match max_index with
    | 0 => f0
    | 1 => f1
    | _ => f2
  let factor0 := safety * fmax
  let factor1 := if factor0 > MAX_FACTOR then MAX_FACTOR else factor0
  let factor := if factor1 < MIN_FACTOR then MIN_FACTOR else factor1
  if MAX_THRESHOLD ≤ factor ∨ factor < MIN_THRESHOLD ∨ max_index = 0 ∨ max_index = 2
  then (_update_step_size cfg factor b1)
  else (b1, none)

/-- `Bdf::step` (lines 835-1069), composed from the pieces above.  Oracles
stand in for the injected nonlinear solver, the user operators and `powf`;
the solver value is returned alongside the result also on the error paths
(Rust keeps the mutated `self`). -/
def step (cfg : BdfProblem) (o : Oracles) (fuel : ℕ) (b : Bdf) : Bdf × StepRes :=
  match step_prepare cfg b with
  | (b1, some e) => (b1, StepRes.err e)
  | (b1, none) =>
    let b2 := _predict_forward b1
    match step_attempt_loop cfg o fuel 0 false b2 with
    | (b3, LoopRes.failed e) => (b3, StepRes.err e)
    | (b3, LoopRes.accepted error_norm safety) =>
      let b4 := update_differences_and_integrate_out cfg b3
      let st := b4.state
      let b5 := { b4 with state := { st with
        y := b4.y_predict
        t := b4.t_predict
        dy := vscale (1 / st.h) (st.diff 1) } }
      let stats := { b5.statistics with number_of_steps :=
        b5.statistics.number_of_steps + 1 }
      let b6 := { b5 with statistics := stats, n_equal_steps := b5.n_equal_steps + 1 }
      let afterOrder :=
        if b6.n_equal_steps > b6.state.order then
          order_control cfg o error_norm safety b6
        else (b6, none)
      match afterOrder with
      | (b7, some e) => (b7, StepRes.err e)
      | (b7, none) =>
        match (if cfg.has_root then o.root b7.state else none) with
        | some root => (b7, StepRes.ok (StopReason.RootFound root))
        | none =>
          match b7.tstop with
          | some tstop =>
            match handle_tstop cfg tstop b7 with
            | (b8, Except.ok (some reason)) => (b8, StepRes.ok reason)
            | (b8, Except.ok none) => (b8, StepRes.ok StopReason.InternalTimestep)
            | (b8, Except.error _) => (b8, StepRes.panic)
          | none => (b7, StepRes.ok StopReason.InternalTimestep)

/-! ## Concrete instances used by witnesses and counterexamples -/

/-- A small concrete solver state: one unknown, `y = [1]`, `t = 1`, `h = 1`,
order 1, first-order difference history. -/
def stateW : BdfState :=
  { y := [1], dy := [0], g := [], dg := [], s := [], ds := [], sg := [], dsg := []
    t := 1, h := 1, order := 1
    diff := fun j => if j = 0 then [1] else [0]
    gdiff := fun _ => [], sdiff := [], sgdiff := [] }

/-- A concrete solver wrapping `stateW`, with nothing pending. -/
def bdfW : Bdf :=
  { state := stateW, n_equal_steps := 0, u := bdfInitU, tstop := none
    is_state_modified := false, y_delta := [0], g_delta := [], s_deltas := []
    sg_deltas := [], y_predict := [0], t_predict := 0, s_predict := []
    statistics := {} }

/-- A plain problem: one state, `rtol = 1`, `atol = [1]`, no outputs, no
sensitivities, no root function. -/
def cfgW : BdfProblem :=
  { rtol := 1, atol := [1], out_rtol := none, out_atol := none
    integrate_out := false, has_out := false, has_root := false
    has_sens := false, naug := 0, sens_rtol := none, sens_atol := none
    sens_include_in_error_control := false, sens_has_out := false
    sens_out_rtol := none, sens_out_atol := none
    sens_include_out_in_error_control := false }

/-- Oracles for a run whose Newton solve always succeeds immediately with the
solution `[1]` (one iteration); no outputs, sensitivities or roots. -/
def oraclesOk : Oracles :=
  { powf := fun _ _ => 1, solve := fun _ => (some [1], 1)
    sens_solve := fun _ _ => none, out_call := fun _ _ => []
    integrate_out_call := fun _ _ _ => [], sens_out_call := fun _ _ _ => []
    sens_integrate_out_call := fun _ _ _ _ => [], root := fun _ => none }

/-- Oracles for a run whose Newton solve always fails. -/
def oraclesFail : Oracles :=
  { oraclesOk with solve := fun _ => (none, 0) }

/-- `bdfW` with the tiny step size `h = 10⁻³²` (exactly `MIN_TIMESTEP`), so
that the 0.3 reduction after a second convergence failure dips below
`MIN_TIMESTEP`. -/
def bdfTiny : Bdf :=
  { bdfW with state := { stateW with h := 1 / 10 ^ 32 } }

/-- `bdfTiny` flagged as modified after an external state edit, at order 3:
`step`'s prologue re-initialises it to first order before the loop runs. -/
def bdfMod3 : Bdf :=
  { bdfTiny with
    is_state_modified := true,
    state := { bdfTiny.state with order := 3 } }

/-- The valid 1×1 all-zero sparsity pattern. -/
def patternW : SparsityPattern :=
  { major_dim := 1, minor_dim := 1, major_offsets := [0, 0], minor_indices := [] }

/-- The 1×1 sparse matrix `[[1]]`. -/
def cscW : CscMatrix :=
  { pattern := { major_dim := 1, minor_dim := 1, major_offsets := [0, 1]
                 minor_indices := [0] }
    values := [1] }

/-! ## Theorems -/

/-- How `union` builds its offsets: one entry per processed column. -/
theorem union_fold_length (a b : SparsityPattern) :
    ∀ (l : List ℕ) (acc : List ℕ × List ℕ),
      ((l.foldl (union_fold a b) acc).1).length = acc.1.length + l.length := by
  intro l
  induction l with
  | nil => intro acc; simp
  | cons x xs ih =>
    intro acc
    rw [List.foldl_cons, ih (union_fold a b acc x)]
    simp only [union_fold, List.length_append, List.length_cons, List.length_nil]
    omega

/-- `union` can never succeed: it hands the constructor one offset per column,
but the constructor demands `major_dim + 1` offsets. -/
theorem union_always_fails (a b : SparsityPattern) :
    a.union b = Except.error SparseFormatError.InvalidOffsetsLength := by
  unfold SparsityPattern.union try_from_offsets_and_indices
  have h := union_fold_length a b (List.range a.major_dim) ([], [])
  simp only [List.length_range, List.length_nil, Nat.zero_add] at h
  simp [h]

/-- C9: the claim that `union` of two same-sized sparsity patterns returns
`Ok` with the set union of their index sets fails on the code: even on the
valid 1×1 empty pattern (accepted by the constructor), `union` returns the
`InvalidOffsetsLength` error, because the source builds one major offset per
column and omits the final offset that the CSC format requires. -/
theorem union_fails_on_valid_input :
    try_from_offsets_and_indices 1 1 [0, 0] [] = Except.ok patternW ∧
    patternW.union patternW = Except.error SparseFormatError.InvalidOffsetsLength := by
  constructor
  · with_unfolding_all rfl
  · exact union_always_fails patternW patternW

/-- `gemv` applies `alpha` twice: once to `tmp` and once more inside `axpy`. -/
theorem gemv_characterisation (m : CscMatrix) (alpha : ℚ) (x : Vec) (beta : ℚ)
    (y : Vec) :
    gemv m alpha x beta y =
      List.zipWith (fun ti yi => alpha * (alpha * ti) + beta * yi)
        (cscMulVec m x) y := by
  unfold gemv axpy vscale
  rw [List.zipWith_map_left]

/-- C2: the claim `gemv(α, x, β, y)` updates `y` to `α·M·x + β·y` fails on the
code: for the 1×1 matrix `M = [[1]]` with `α = 2`, `x = [1]`, `β = 0`,
`y = [0]`, the source computes `tmp = M·x`, scales it by `α`, and then passes
`α` again to `axpy`, producing `α²·M·x + β·y = [4]` instead of the specified
`[2]`. -/
theorem gemv_failing_input :
    gemv cscW 2 [1] 0 [0] = [4] ∧ gemvSpec cscW 2 [1] 0 [0] = [2] := by
  constructor <;> with_unfolding_all rfl

/-- C3 counterexample: with previous norm 1 and new weighted norm η = 2, the
claim's Dahlquist convergence condition `rate/(1-rate)·η < tol` holds (its
left side is negative since rate = 2 > 1), so the claim makes the result
`Converged`; the code returns `Diverged`, because the `rate > 1` divergence
test runs before the convergence estimate. -/
theorem check_new_iteration_claim_counterexample :
    ((2 : ℚ) / 1) / (1 - (2 : ℚ) / 1) * 2 < (1 / 100 : ℚ) ∧
    (check_new_iteration
      { rtol := 1 / 100, atol := [1], tol := 1 / 100, max_iter := 4, iter := 1,
        old_norm := some 1 } 2).1 = ConvergenceStatus.Diverged := by
  constructor
  · norm_num
  · with_unfolding_all rfl

/-- C3 amended: `check_new_iteration` classifies a new weighted norm `η`
(`eta` below) as follows, given a positive recorded previous norm and with
`rate = η/η_prev`: Converged when `η ≤ EPSILON`; Diverged whenever
`rate ≥ 1`; Converged when `rate < 1` and the Dahlquist estimate
`rate/(1-rate)·η < tol` holds; Diverged when `rate < 1`, the estimate fails
and the predicted residual `rate^(max_iter-iter)/(1-rate)·η` exceeds `tol`;
otherwise the iteration counter is bumped and `η` recorded, with
`MaximumIterations` when the bumped counter reaches `max_iter` and `Continue`
below it. -/
theorem check_new_iteration_amended (c : Convergence) (eta old : ℚ)
    (hold : c.old_norm = some old) (hpos : 0 < old) :
    (eta ≤ eps → (check_new_iteration c eta).1 = ConvergenceStatus.Converged) ∧
    (eps < eta → 1 ≤ eta / old →
      (check_new_iteration c eta).1 = ConvergenceStatus.Diverged) ∧
    (eps < eta → eta / old < 1 →
      eta / old / (1 - eta / old) * eta < c.tol →
      (check_new_iteration c eta).1 = ConvergenceStatus.Converged) ∧
    (eps < eta → eta / old < 1 →
      ¬ eta / old / (1 - eta / old) * eta < c.tol →
      c.tol < (eta / old) ^ (c.max_iter - c.iter) / (1 - eta / old) * eta →
      (check_new_iteration c eta).1 = ConvergenceStatus.Diverged) ∧
    (eps < eta → eta / old < 1 →
      ¬ eta / old / (1 - eta / old) * eta < c.tol →
      ¬ c.tol < (eta / old) ^ (c.max_iter - c.iter) / (1 - eta / old) * eta →
      check_new_iteration c eta =
        (if c.max_iter ≤ c.iter + 1 then ConvergenceStatus.MaximumIterations
         else ConvergenceStatus.Continue,
         { c with iter := c.iter + 1, old_norm := some eta })) := by
  have heps : (0 : ℚ) < eps := by norm_num [eps]
  refine ⟨?_, ?_, ?_, ?_, ?_⟩
  · intro h1
    simp only [check_new_iteration, if_pos h1]
  · intro h1 hrate
    have hetapos : 0 < eta := lt_trans heps h1
    rcases eq_or_lt_of_le hrate with heq | hlt
    · -- rate = 1: IEEE divergence via the prediction check
      simp only [check_new_iteration, hold, if_neg (not_le.mpr h1)]
      rw [if_neg (by rw [← heq]; exact lt_irrefl 1)]
      rw [if_neg (by rw [← heq]; simp; nlinarith)]
      rw [if_pos (by rw [← heq]; simp; positivity)]
    · simp only [check_new_iteration, hold, if_neg (not_le.mpr h1), if_pos hlt]
  · intro h1 hrate hconv
    have hsub : 0 < 1 - eta / old := by linarith
    have hconv2 : eta / old * eta < c.tol * (1 - eta / old) := by
      rw [div_mul_eq_mul_div, div_lt_iff hsub] at hconv
      linarith
    simp only [check_new_iteration, hold, if_neg (not_le.mpr h1),
      if_neg (not_lt.mpr (le_of_lt hrate)), if_pos hconv2]
  · intro h1 hrate hconv hdiv
    have hsub : 0 < 1 - eta / old := by linarith
    have hconv2 : ¬ eta / old * eta < c.tol * (1 - eta / old) := by
      rw [div_mul_eq_mul_div, div_lt_iff hsub] at hconv
      intro hcon
      exact hconv (by linarith)
    have hdiv2 : c.tol * (1 - eta / old) <
        (eta / old) ^ (c.max_iter - c.iter) * eta := by
      rw [div_mul_eq_mul_div, lt_div_iff hsub] at hdiv
      linarith
    simp only [check_new_iteration, hold, if_neg (not_le.mpr h1),
      if_neg (not_lt.mpr (le_of_lt hrate)), if_neg hconv2, if_pos hdiv2]
  · intro h1 hrate hconv hdiv
    have hsub : 0 < 1 - eta / old := by linarith
    have hconv2 : ¬ eta / old * eta < c.tol * (1 - eta / old) := by
      rw [div_mul_eq_mul_div, div_lt_iff hsub] at hconv
      intro hcon
      exact hconv (by linarith)
    have hdiv2 : ¬ c.tol * (1 - eta / old) <
        (eta / old) ^ (c.max_iter - c.iter) * eta := by
      rw [div_mul_eq_mul_div, lt_div_iff hsub] at hdiv
      intro hcon
      exact hdiv (by linarith)
    simp only [check_new_iteration, hold, if_neg (not_le.mpr h1),
      if_neg (not_lt.mpr (le_of_lt hrate)), if_neg hconv2, if_neg hdiv2]
    rcases le_or_lt c.max_iter (c.iter + 1) with hm | hm
    · rw [if_pos (by simpa using hm), if_pos hm]
    · rw [if_neg (by simpa using not_le.mpr hm), if_neg (not_le.mpr hm)]

/-- C3 witness: a concrete Converged verdict through the Dahlquist estimate
(`η = 1/2`, previous norm 1, `tol = 1`). -/
theorem check_new_iteration_amended_witness :
    (check_new_iteration
      { rtol := 1, atol := [1], tol := 1, max_iter := 4, iter := 1,
        old_norm := some 1 } (1 / 2)).1 = ConvergenceStatus.Converged :=
  (check_new_iteration_amended
    { rtol := 1, atol := [1], tol := 1, max_iter := 4, iter := 1,
      old_norm := some 1 } (1 / 2) 1 rfl (by norm_num)).2.2.1
    (by norm_num [eps]) (by norm_num) (by norm_num)

/-- C10: after `set_state` (and likewise after `state_mut`) marks the state
modified, and before the next step clears the flag, the three interpolation
entry points succeed exactly at the state's current time, returning the stored
`y`, `g` and `s`, and return `InterpolationTimeOutsideCurrentStep` at every
other time. -/
theorem interpolate_after_set_state (b : Bdf) (st : BdfState) (t : ℚ) :
    (set_state b st).is_state_modified = true ∧
    (state_mut b).is_state_modified = true ∧
    (∀ b2 : Bdf, b2.is_state_modified = true →
      (interpolate b2 t =
        if t = b2.state.t then Except.ok b2.state.y
        else Except.error SolverError.InterpolationTimeOutsideCurrentStep) ∧
      (interpolate_out b2 t =
        if t = b2.state.t then Except.ok b2.state.g
        else Except.error SolverError.InterpolationTimeOutsideCurrentStep) ∧
      (interpolate_sens b2 t =
        if t = b2.state.t then Except.ok b2.state.s
        else Except.error SolverError.InterpolationTimeOutsideCurrentStep)) := by
  refine ⟨rfl, rfl, fun b2 hmod => ⟨?_, ?_, ?_⟩⟩ <;>
    simp [interpolate, interpolate_out, interpolate_sens, hmod]

/-- C10 witness: `set_state` on a concrete solver and state. -/
theorem interpolate_after_set_state_witness :
    interpolate (set_state bdfW stateW) 1 = Except.ok stateW.y ∧
    interpolate (set_state bdfW stateW) 0 =
      Except.error SolverError.InterpolationTimeOutsideCurrentStep := by
  have h := interpolate_after_set_state bdfW stateW
  constructor
  · have h2 := ((h 1).2.2 (set_state bdfW stateW) (h 1).1).1
    rw [h2]
    with_unfolding_all rfl
  · have h2 := ((h 0).2.2 (set_state bdfW stateW) (h 0).1).1
    rw [h2]
    with_unfolding_all rfl

/-- C4 counterexample: a solver whose unmodified state sits at `t = 1`,
`h = 1` (so the current step interval is `[0, 1]`) happily interpolates at
`t = -5`, far outside that interval: the claim that `interpolate` errors
exactly outside `[t-h, t]` fails on the code, which only rejects times beyond
the current time in the integration direction. -/
theorem interpolate_claim_counterexample :
    bdfW.is_state_modified = false ∧
    bdfW.state.t = 1 ∧ bdfW.state.h = 1 ∧ ((-5 : ℚ) < bdfW.state.t - bdfW.state.h) ∧
    interpolate bdfW (-5) =
      Except.ok (interpolate_from_diff (-5) bdfW.state.diff 1 1 1) := by
  refine ⟨rfl, ?_, ?_, ?_, ?_⟩ <;> with_unfolding_all rfl

/-- C4 amended: with an unmodified state, `interpolate(t)` fails — always with
`InterpolationTimeAfterCurrentTime` — exactly when `t` lies beyond the current
time in the integration direction (`t > t_cur` for `h > 0`, `t < t_cur`
otherwise); for every other `t`, including times before `t_cur - h`, it
returns the interpolating polynomial evaluated from the difference matrix.
`interpolate` borrows the solver immutably (here: it is a pure function), so
the solver state is untouched. -/
theorem interpolate_amended (b : Bdf) (t : ℚ) (hmod : b.is_state_modified = false) :
    (((interpolate b t).isOk = false) ↔
      ((0 < b.state.h ∧ b.state.t < t) ∨ (b.state.h ≤ 0 ∧ t < b.state.t))) ∧
    (∀ e, interpolate b t = Except.error e →
      e = SolverError.InterpolationTimeAfterCurrentTime) ∧
    ((interpolate b t).isOk = true →
      interpolate b t = Except.ok
        (interpolate_from_diff t b.state.diff b.state.t b.state.h b.state.order)) := by
  have hif : interpolate b t =
      (if (0 < b.state.h ∧ b.state.t < t) ∨ (¬ 0 < b.state.h ∧ t < b.state.t)
       then Except.error SolverError.InterpolationTimeAfterCurrentTime
       else Except.ok
         (interpolate_from_diff t b.state.diff b.state.t b.state.h b.state.order)) := by
    unfold interpolate
    rw [hmod]
    simp
  by_cases hc : (0 < b.state.h ∧ b.state.t < t) ∨ (¬ 0 < b.state.h ∧ t < b.state.t)
  · rw [hif, if_pos hc]
    refine ⟨?_, ?_, ?_⟩
    · apply iff_of_true
      · rfl
      · rcases hc with h | h
        · exact Or.inl h
        · exact Or.inr ⟨not_lt.mp h.1, h.2⟩
    · intro e he
      exact (Except.error.inj he).symm
    · intro hok
      simp [Except.isOk, Except.toBool] at hok
  · rw [hif, if_neg hc]
    refine ⟨?_, ?_, ?_⟩
    · apply iff_of_false
      · simp [Except.isOk, Except.toBool]
      · intro hor
        apply hc
        rcases hor with h | h
        · exact Or.inl h
        · exact Or.inr ⟨not_lt.mpr h.1, h.2⟩
    · intro e he
      simp at he
    · intro _
      rfl

/-- C4 witness: interpolation inside the step interval succeeds with the
polynomial value, and a time beyond the current time is rejected. -/
theorem interpolate_amended_witness :
    ((interpolate bdfW (1 / 2)).isOk = true →
      interpolate bdfW (1 / 2) = Except.ok
        (interpolate_from_diff (1 / 2) bdfW.state.diff bdfW.state.t bdfW.state.h
          bdfW.state.order)) ∧
    ((interpolate bdfW 7).isOk = false ↔
      ((0 < bdfW.state.h ∧ bdfW.state.t < 7) ∨ (bdfW.state.h ≤ 0 ∧ (7:ℚ) < bdfW.state.t))) :=
  ⟨(interpolate_amended bdfW (1 / 2) rfl).2.2,
   (interpolate_amended bdfW 7 rfl).1⟩

/-- C8: `set_stop_time(t)` with `t` strictly behind the current time in the
integration direction returns the `StopTimeBeforeCurrentTime` error and
leaves no stop time stored. -/
theorem set_stop_time_behind (cfg : BdfProblem) (b : Bdf) (t : ℚ)
    (hdir : (0 < b.state.h ∧ t < b.state.t) ∨ (b.state.h < 0 ∧ b.state.t < t)) :
    (set_stop_time cfg t b).2 = some SolverError.StopTimeBeforeCurrentTime ∧
    (set_stop_time cfg t b).1.tstop = none := by
  unfold set_stop_time handle_tstop
  by_cases hnear : |b.state.t - t| ≤ 100 * eps * (|b.state.t| + |b.state.h|)
  · simp only [hnear, if_true]
    exact ⟨by trivial, by trivial⟩
  · have hfar : (0 < b.state.h ∧ t < b.state.t - 100 * eps * (|b.state.t| + |b.state.h|)) ∨
        (b.state.h < 0 ∧ b.state.t + 100 * eps * (|b.state.t| + |b.state.h|) < t) := by
      rcases hdir with ⟨hh, ht⟩ | ⟨hh, ht⟩
      · left
        refine ⟨hh, ?_⟩
        rw [abs_of_pos (by linarith : (0:ℚ) < b.state.t - t)] at hnear
        linarith [not_le.mp hnear]
      · right
        refine ⟨hh, ?_⟩
        rw [abs_of_neg (by linarith : b.state.t - t < 0)] at hnear
        linarith [not_le.mp hnear]
    simp only [hnear, if_false, hfar, if_true]
    exact ⟨by trivial, by trivial⟩

/-- C8 witness: stopping at `t = 0` when the solver sits at `t = 1` with
`h = 1 > 0`. -/
theorem set_stop_time_behind_witness :
    (set_stop_time cfgW 0 bdfW).2 = some SolverError.StopTimeBeforeCurrentTime ∧
    (set_stop_time cfgW 0 bdfW).1.tstop = none :=
  set_stop_time_behind cfgW bdfW 0
    (Or.inl ⟨by norm_num [bdfW, stateW], by norm_num [bdfW, stateW]⟩)

/-- Columns above the loop start are untouched by the downward pass. -/
theorem add_columns_down_above :
    ∀ (i : ℕ) (diff : ℕ → Vec) (j : ℕ), i < j → add_columns_down diff i j = diff j := by
  intro i
  induction i with
  | zero =>
    intro diff j hj
    unfold add_columns_down column_axpy_add
    exact Function.update_noteq (by omega) _ diff
  | succ i ih =>
    intro diff j hj
    unfold add_columns_down
    rw [ih _ j (by omega)]
    unfold column_axpy_add
    exact Function.update_noteq (by omega) _ diff

/-- Each column at or below the loop start ends as the final value of the next
column plus its own original value — the net effect of the source's
`for i in (0..=top).rev() { diff[:,i] += diff[:,i+1] }`. -/
theorem add_columns_down_rec :
    ∀ (i : ℕ) (diff : ℕ → Vec) (j : ℕ), j ≤ i →
      add_columns_down diff i j = vadd (add_columns_down diff i (j + 1)) (diff j) := by
  intro i
  induction i with
  | zero =>
    intro diff j hj
    interval_cases j
    rw [add_columns_down_above 0 diff 1 (by omega)]
    unfold add_columns_down column_axpy_add
    rw [Function.update_same]
  | succ i ih =>
    intro diff j hj
    rcases Nat.lt_or_ge j (i + 1) with hlt | hge
    · have hji : j ≤ i := by omega
      show add_columns_down (column_axpy_add diff (i + 1)) i j = _
      rw [ih _ j hji]
      have hupd : column_axpy_add diff (i + 1) j = diff j :=
        Function.update_noteq (by omega) _ diff
      rw [hupd]
      rfl
    · have hj1 : j = i + 1 := by omega
      subst hj1
      show add_columns_down (column_axpy_add diff (i + 1)) i (i + 1) = _
      rw [add_columns_down_above i _ (i + 1) (by omega)]
      rw [add_columns_down_above (i + 1) diff (i + 2) (by omega)]
      unfold column_axpy_add
      rw [Function.update_same]

/-- C6: after an accepted step at order `k` with correction `d`, `_update_diff`
performs exactly the claimed update: column `k+2` becomes `d - diff[:,k+1]`,
column `k+1` becomes `d`, every column `j ≤ k` has the (already updated)
column `j+1` added to it, and all later columns are untouched. -/
theorem _update_diff_characterisation (order : ℕ) (d : Vec) (diff : ℕ → Vec) :
    (_update_diff order d diff (order + 2) = vsub d (diff (order + 1))) ∧
    (_update_diff order d diff (order + 1) = d) ∧
    (∀ j, j ≤ order →
      _update_diff order d diff j =
        vadd (_update_diff order d diff (j + 1)) (diff j)) ∧
    (∀ j, order + 2 < j → _update_diff order d diff j = diff j) := by
  unfold _update_diff
  set diff2 := Function.update
    (Function.update diff (order + 2) (vsub d (diff (order + 1)))) (order + 1) d
    with hdiff2
  have h2 : ∀ j, order + 2 < j → diff2 j = diff j := by
    intro j hj
    rw [hdiff2, Function.update_noteq (by omega), Function.update_noteq (by omega)]
  have hlow : ∀ j, j ≤ order → diff2 j = diff j := by
    intro j hj
    rw [hdiff2, Function.update_noteq (by omega), Function.update_noteq (by omega)]
  refine ⟨?_, ?_, ?_, ?_⟩
  · rw [add_columns_down_above order diff2 (order + 2) (by omega), hdiff2,
      Function.update_noteq (by omega), Function.update_same]
  · rw [add_columns_down_above order diff2 (order + 1) (by omega), hdiff2,
      Function.update_same]
  · intro j hj
    rw [add_columns_down_rec order diff2 j hj, hlow j hj]
  · intro j hj
    rw [add_columns_down_above order diff2 j (by omega), h2 j hj]

/-- C6 witness: the characterisation applied at order 1 to a concrete
correction and difference matrix. -/
theorem _update_diff_characterisation_witness :
    (_update_diff 1 [5] stateW.diff 3 = vsub [5] (stateW.diff 2)) ∧
    (_update_diff 1 [5] stateW.diff 2 = [5]) ∧
    (_update_diff 1 [5] stateW.diff 1 =
      vadd (_update_diff 1 [5] stateW.diff 2) (stateW.diff 1)) ∧
    (_update_diff 1 [5] stateW.diff 4 = stateW.diff 4) :=
  ⟨(_update_diff_characterisation 1 [5] stateW.diff).1,
   (_update_diff_characterisation 1 [5] stateW.diff).2.1,
   (_update_diff_characterisation 1 [5] stateW.diff).2.2.1 1 (by norm_num),
   (_update_diff_characterisation 1 [5] stateW.diff).2.2.2 4 (by norm_num)⟩

/-- Row 0 of `R(x)` is all ones. -/
theorem cr0 {K : Type} [Field K] (x : K) (m : ℕ) : _compute_r x 0 m = 1 := by
  unfold _compute_r
  simp

/-- Row 1 of `R(x)`: `R[1,m] = -x·m` (also at `m = 0`, where the column stays
at its zero initialisation). -/
theorem cr1 {K : Type} [Field K] (x : K) (m : ℕ) :
    _compute_r x 1 m = -(x * m) := by
  match m with
  | 0 => unfold _compute_r; norm_num
  | n + 1 => unfold _compute_r; rw [cr0]; norm_num

/-- Row 2 of `R(x)`. -/
theorem cr2 {K : Type} [Field K] (x : K) (m : ℕ) :
    _compute_r x 2 m = -(x * m) * (1 - x * m) / 2 := by
  match m with
  | 0 => unfold _compute_r; norm_num
  | n + 1 =>
    unfold _compute_r
    rw [show (2 - 1 : ℕ) = 1 from rfl, cr1]
    norm_num

/-- Row 3 of `R(x)`. -/
theorem cr3 {K : Type} [Field K] (x : K) (m : ℕ) :
    _compute_r x 3 m = -(x * m) * (1 - x * m) * (2 - x * m) / 6 := by
  match m with
  | 0 => unfold _compute_r; norm_num
  | n + 1 =>
    unfold _compute_r
    rw [show (3 - 1 : ℕ) = 2 from rfl, cr2]
    push_cast
    field_simp
    ring

/-- Row 4 of `R(x)`. -/
theorem cr4 {K : Type} [Field K] (x : K) (m : ℕ) :
    _compute_r x 4 m = -(x * m) * (1 - x * m) * (2 - x * m) * (3 - x * m) / 24 := by
  match m with
  | 0 => unfold _compute_r; norm_num
  | n + 1 =>
    unfold _compute_r
    rw [show (4 - 1 : ℕ) = 3 from rfl, cr3]
    push_cast
    field_simp
    ring

/-- Row 5 of `R(x)`. -/
theorem cr5 {K : Type} [Field K] (x : K) (m : ℕ) :
    _compute_r x 5 m
      = -(x * m) * (1 - x * m) * (2 - x * m) * (3 - x * m) * (4 - x * m) / 120 := by
  match m with
  | 0 => unfold _compute_r; norm_num
  | n + 1 =>
    unfold _compute_r
    rw [show (5 - 1 : ℕ) = 4 from rfl, cr4]
    push_cast
    field_simp
    ring

/-- `U = R(1)` vanishes strictly below its diagonal: `_compute_r 1 m j = 0`
for `j < m` (the recursion passes through the factor `(j - j)`). -/
theorem U_below_diag_zero {K : Type} [Field K] (m j : ℕ) (hm : m ≤ 5)
    (hj : j < m) : _compute_r (1 : K) m j = 0 := by
  interval_cases m <;> interval_cases j <;>
    · simp only [cr1, cr2, cr3, cr4, cr5]
      norm_num

/-- For a column `l ≤ k` the `RU` entry does not depend on the sum bound:
every term beyond row `l` of `U` vanishes. -/
theorem ruEntry_eq_five {K : Type} [Field K] (x : K) (k i l : ℕ) (hk : k ≤ 5)
    (hl : l ≤ k) :
    ruEntry k x (_compute_r 1) i l = ruEntry 5 x (_compute_r 1) i l := by
  unfold ruEntry
  apply Finset.sum_subset
  · exact Finset.range_subset.mpr (by omega)
  · intro m hm hnot
    rw [U_below_diag_zero m l (by simp at hm; omega)
      (by simp at hm; simp at hnot; omega), mul_zero]

/-- Entry `(0,0)` of `R(x)·U`. -/
theorem ruv00 {K : Type} [Field K] [CharZero K] (x : K) :
    ruEntry 5 x (_compute_r 1) 0 0 = 1 := by
  simp only [ruEntry, Finset.sum_range_succ, Finset.sum_range_zero,
    cr0, cr1, cr2, cr3, cr4, cr5]
  push_cast
  field_simp
  try ring

/-- Entries of row 0 of `R(x)·U` above the diagonal are zero. -/
theorem ruv0j {K : Type} [Field K] [CharZero K] (x : K) (j : ℕ) (h1 : 1 ≤ j) (hj : j ≤ 5) :
    ruEntry 5 x (_compute_r 1) 0 j = 0 := by
  interval_cases j <;>
    · simp only [ruEntry, Finset.sum_range_succ, Finset.sum_range_zero,
        cr0, cr1, cr2, cr3, cr4, cr5]
      push_cast
      field_simp
      try ring

/-- Column 0 of `R(x)·U` below row 0 is zero. -/
theorem ruvi0 {K : Type} [Field K] (x : K) (i : ℕ) (h1 : 1 ≤ i) (hi : i ≤ 5) :
    ruEntry 5 x (_compute_r 1) i 0 = 0 := by
  interval_cases i <;>
    · simp only [ruEntry, Finset.sum_range_succ, Finset.sum_range_zero,
        cr0, cr1, cr2, cr3, cr4, cr5]
      push_cast
      ring

/-- Entry `(1,1)` of `R(x)·U`. -/
theorem ruv11 {K : Type} [Field K] [CharZero K] (x : K) :
    ruEntry 5 x (_compute_r 1) 1 1 = x := by
  simp only [ruEntry, Finset.sum_range_succ, Finset.sum_range_zero,
    cr0, cr1, cr2, cr3, cr4, cr5]
  push_cast
  field_simp
  try ring

/-- Entries of row 1 of `R(x)·U` above the diagonal are zero. -/
theorem ruv1j {K : Type} [Field K] [CharZero K] (x : K) (j : ℕ) (h1 : 2 ≤ j) (hj : j ≤ 5) :
    ruEntry 5 x (_compute_r 1) 1 j = 0 := by
  interval_cases j <;>
    · simp only [ruEntry, Finset.sum_range_succ, Finset.sum_range_zero,
        cr0, cr1, cr2, cr3, cr4, cr5]
      push_cast
      field_simp
      try ring

/-- Entry `(2,1)` of `R(x)·U`. -/
theorem ruv21 {K : Type} [Field K] [CharZero K] (x : K) :
    ruEntry 5 x (_compute_r 1) 2 1 = (x - x ^ 2) / 2 := by
  simp only [ruEntry, Finset.sum_range_succ, Finset.sum_range_zero,
    cr0, cr1, cr2, cr3, cr4, cr5]
  push_cast
  field_simp
  try ring

/-- Entry `(2,2)` of `R(x)·U`. -/
theorem ruv22 {K : Type} [Field K] [CharZero K] (x : K) :
    ruEntry 5 x (_compute_r 1) 2 2 = x ^ 2 := by
  simp only [ruEntry, Finset.sum_range_succ, Finset.sum_range_zero,
    cr0, cr1, cr2, cr3, cr4, cr5]
  push_cast
  field_simp
  try ring

/-- Entries of row 2 of `R(x)·U` above the diagonal are zero. -/
theorem ruv2j {K : Type} [Field K] [CharZero K] (x : K) (j : ℕ) (h1 : 3 ≤ j) (hj : j ≤ 5) :
    ruEntry 5 x (_compute_r 1) 2 j = 0 := by
  interval_cases j <;>
    · simp only [ruEntry, Finset.sum_range_succ, Finset.sum_range_zero,
        cr0, cr1, cr2, cr3, cr4, cr5]
      push_cast
      field_simp
      try ring

/-- Entry `(3,1)` of `R(x)·U`. -/
theorem ruv31 {K : Type} [Field K] [CharZero K] (x : K) :
    ruEntry 5 x (_compute_r 1) 3 1 = (2 * x - 3 * x ^ 2 + x ^ 3) / 6 := by
  simp only [ruEntry, Finset.sum_range_succ, Finset.sum_range_zero,
    cr0, cr1, cr2, cr3, cr4, cr5]
  push_cast
  field_simp
  try ring

/-- Entry `(3,2)` of `R(x)·U`. -/
theorem ruv32 {K : Type} [Field K] [CharZero K] (x : K) :
    ruEntry 5 x (_compute_r 1) 3 2 = x ^ 2 - x ^ 3 := by
  simp only [ruEntry, Finset.sum_range_succ, Finset.sum_range_zero,
    cr0, cr1, cr2, cr3, cr4, cr5]
  push_cast
  field_simp
  try ring

/-- Entry `(3,3)` of `R(x)·U`. -/
theorem ruv33 {K : Type} [Field K] [CharZero K] (x : K) :
    ruEntry 5 x (_compute_r 1) 3 3 = x ^ 3 := by
  simp only [ruEntry, Finset.sum_range_succ, Finset.sum_range_zero,
    cr0, cr1, cr2, cr3, cr4, cr5]
  push_cast
  field_simp
  try ring

/-- Entries of row 3 of `R(x)·U` above the diagonal are zero. -/
theorem ruv3j {K : Type} [Field K] [CharZero K] (x : K) (j : ℕ) (h1 : 4 ≤ j) (hj : j ≤ 5) :
    ruEntry 5 x (_compute_r 1) 3 j = 0 := by
  interval_cases j <;>
    · simp only [ruEntry, Finset.sum_range_succ, Finset.sum_range_zero,
        cr0, cr1, cr2, cr3, cr4, cr5]
      push_cast
      field_simp
      try ring

/-- Entry `(4,1)` of `R(x)·U`. -/
theorem ruv41 {K : Type} [Field K] [CharZero K] (x : K) :
    ruEntry 5 x (_compute_r 1) 4 1
      = (6 * x - 11 * x ^ 2 + 6 * x ^ 3 - x ^ 4) / 24 := by
  simp only [ruEntry, Finset.sum_range_succ, Finset.sum_range_zero,
    cr0, cr1, cr2, cr3, cr4, cr5]
  push_cast
  field_simp
  try ring

/-- Entry `(4,2)` of `R(x)·U`. -/
theorem ruv42 {K : Type} [Field K] [CharZero K] (x : K) :
    ruEntry 5 x (_compute_r 1) 4 2
      = (11 * x ^ 2 - 18 * x ^ 3 + 7 * x ^ 4) / 12 := by
  simp only [ruEntry, Finset.sum_range_succ, Finset.sum_range_zero,
    cr0, cr1, cr2, cr3, cr4, cr5]
  push_cast
  field_simp
  try ring

/-- Entry `(4,3)` of `R(x)·U`. -/
theorem ruv43 {K : Type} [Field K] [CharZero K] (x : K) :
    ruEntry 5 x (_compute_r 1) 4 3 = (3 * x ^ 3 - 3 * x ^ 4) / 2 := by
  simp only [ruEntry, Finset.sum_range_succ, Finset.sum_range_zero,
    cr0, cr1, cr2, cr3, cr4, cr5]
  push_cast
  field_simp
  try ring

/-- Entry `(4,4)` of `R(x)·U`. -/
theorem ruv44 {K : Type} [Field K] [CharZero K] (x : K) :
    ruEntry 5 x (_compute_r 1) 4 4 = x ^ 4 := by
  simp only [ruEntry, Finset.sum_range_succ, Finset.sum_range_zero,
    cr0, cr1, cr2, cr3, cr4, cr5]
  push_cast
  field_simp
  try ring

/-- Entry `(4,5)` of `R(x)·U` is zero. -/
theorem ruv45 {K : Type} [Field K] [CharZero K] (x : K) :
    ruEntry 5 x (_compute_r 1) 4 5 = 0 := by
  simp only [ruEntry, Finset.sum_range_succ, Finset.sum_range_zero,
    cr0, cr1, cr2, cr3, cr4, cr5]
  push_cast
  field_simp
  try ring

/-- Entry `(5,1)` of `R(x)·U`. -/
theorem ruv51 {K : Type} [Field K] [CharZero K] (x : K) :
    ruEntry 5 x (_compute_r 1) 5 1
      = (24 * x - 50 * x ^ 2 + 35 * x ^ 3 - 10 * x ^ 4 + x ^ 5) / 120 := by
  simp only [ruEntry, Finset.sum_range_succ, Finset.sum_range_zero,
    cr0, cr1, cr2, cr3, cr4, cr5]
  push_cast
  field_simp
  try ring

/-- Entry `(5,2)` of `R(x)·U`. -/
theorem ruv52 {K : Type} [Field K] [CharZero K] (x : K) :
    ruEntry 5 x (_compute_r 1) 5 2
      = (10 * x ^ 2 - 21 * x ^ 3 + 14 * x ^ 4 - 3 * x ^ 5) / 12 := by
  simp only [ruEntry, Finset.sum_range_succ, Finset.sum_range_zero,
    cr0, cr1, cr2, cr3, cr4, cr5]
  push_cast
  field_simp
  try ring

/-- Entry `(5,3)` of `R(x)·U`. -/
theorem ruv53 {K : Type} [Field K] [CharZero K] (x : K) :
    ruEntry 5 x (_compute_r 1) 5 3
      = (7 * x ^ 3 - 12 * x ^ 4 + 5 * x ^ 5) / 4 := by
  simp only [ruEntry, Finset.sum_range_succ, Finset.sum_range_zero,
    cr0, cr1, cr2, cr3, cr4, cr5]
  push_cast
  field_simp
  try ring

/-- Entry `(5,4)` of `R(x)·U`. -/
theorem ruv54 {K : Type} [Field K] [CharZero K] (x : K) :
    ruEntry 5 x (_compute_r 1) 5 4 = 2 * x ^ 4 - 2 * x ^ 5 := by
  simp only [ruEntry, Finset.sum_range_succ, Finset.sum_range_zero,
    cr0, cr1, cr2, cr3, cr4, cr5]
  push_cast
  field_simp
  try ring

/-- Entry `(5,5)` of `R(x)·U`. -/
theorem ruv55 {K : Type} [Field K] [CharZero K] (x : K) :
    ruEntry 5 x (_compute_r 1) 5 5 = x ^ 5 := by
  simp only [ruEntry, Finset.sum_range_succ, Finset.sum_range_zero,
    cr0, cr1, cr2, cr3, cr4, cr5]
  push_cast
  field_simp
  try ring

/-- Entry `(0,1)` of `R(x)·U` is zero. -/
theorem ruv01 {K : Type} [Field K] [CharZero K] (x : K) :
    ruEntry 5 x (_compute_r 1) 0 1 = 0 :=
  ruv0j x 1 (by norm_num) (by norm_num)

/-- Entry `(0,2)` of `R(x)·U` is zero. -/
theorem ruv02 {K : Type} [Field K] [CharZero K] (x : K) :
    ruEntry 5 x (_compute_r 1) 0 2 = 0 :=
  ruv0j x 2 (by norm_num) (by norm_num)

/-- Entry `(0,3)` of `R(x)·U` is zero. -/
theorem ruv03 {K : Type} [Field K] [CharZero K] (x : K) :
    ruEntry 5 x (_compute_r 1) 0 3 = 0 :=
  ruv0j x 3 (by norm_num) (by norm_num)

/-- Entry `(0,4)` of `R(x)·U` is zero. -/
theorem ruv04 {K : Type} [Field K] [CharZero K] (x : K) :
    ruEntry 5 x (_compute_r 1) 0 4 = 0 :=
  ruv0j x 4 (by norm_num) (by norm_num)

/-- Entry `(0,5)` of `R(x)·U` is zero. -/
theorem ruv05 {K : Type} [Field K] [CharZero K] (x : K) :
    ruEntry 5 x (_compute_r 1) 0 5 = 0 :=
  ruv0j x 5 (by norm_num) (by norm_num)

/-- Entry `(1,2)` of `R(x)·U` is zero. -/
theorem ruv12 {K : Type} [Field K] [CharZero K] (x : K) :
    ruEntry 5 x (_compute_r 1) 1 2 = 0 :=
  ruv1j x 2 (by norm_num) (by norm_num)

/-- Entry `(1,3)` of `R(x)·U` is zero. -/
theorem ruv13 {K : Type} [Field K] [CharZero K] (x : K) :
    ruEntry 5 x (_compute_r 1) 1 3 = 0 :=
  ruv1j x 3 (by norm_num) (by norm_num)

/-- Entry `(1,4)` of `R(x)·U` is zero. -/
theorem ruv14 {K : Type} [Field K] [CharZero K] (x : K) :
    ruEntry 5 x (_compute_r 1) 1 4 = 0 :=
  ruv1j x 4 (by norm_num) (by norm_num)

/-- Entry `(1,5)` of `R(x)·U` is zero. -/
theorem ruv15 {K : Type} [Field K] [CharZero K] (x : K) :
    ruEntry 5 x (_compute_r 1) 1 5 = 0 :=
  ruv1j x 5 (by norm_num) (by norm_num)

/-- Entry `(2,3)` of `R(x)·U` is zero. -/
theorem ruv23 {K : Type} [Field K] [CharZero K] (x : K) :
    ruEntry 5 x (_compute_r 1) 2 3 = 0 :=
  ruv2j x 3 (by norm_num) (by norm_num)

/-- Entry `(2,4)` of `R(x)·U` is zero. -/
theorem ruv24 {K : Type} [Field K] [CharZero K] (x : K) :
    ruEntry 5 x (_compute_r 1) 2 4 = 0 :=
  ruv2j x 4 (by norm_num) (by norm_num)

/-- Entry `(2,5)` of `R(x)·U` is zero. -/
theorem ruv25 {K : Type} [Field K] [CharZero K] (x : K) :
    ruEntry 5 x (_compute_r 1) 2 5 = 0 :=
  ruv2j x 5 (by norm_num) (by norm_num)

/-- Entry `(3,4)` of `R(x)·U` is zero. -/
theorem ruv34 {K : Type} [Field K] [CharZero K] (x : K) :
    ruEntry 5 x (_compute_r 1) 3 4 = 0 :=
  ruv3j x 4 (by norm_num) (by norm_num)

/-- Entry `(3,5)` of `R(x)·U` is zero. -/
theorem ruv35 {K : Type} [Field K] [CharZero K] (x : K) :
    ruEntry 5 x (_compute_r 1) 3 5 = 0 :=
  ruv3j x 5 (by norm_num) (by norm_num)

/-- Entry `(1,0)` of `R(x)·U` is zero. -/
theorem ruv10 {K : Type} [Field K] [CharZero K] (x : K) :
    ruEntry 5 x (_compute_r 1) 1 0 = 0 :=
  ruvi0 x 1 (by norm_num) (by norm_num)

/-- Entry `(2,0)` of `R(x)·U` is zero. -/
theorem ruv20 {K : Type} [Field K] [CharZero K] (x : K) :
    ruEntry 5 x (_compute_r 1) 2 0 = 0 :=
  ruvi0 x 2 (by norm_num) (by norm_num)

/-- Entry `(3,0)` of `R(x)·U` is zero. -/
theorem ruv30 {K : Type} [Field K] [CharZero K] (x : K) :
    ruEntry 5 x (_compute_r 1) 3 0 = 0 :=
  ruvi0 x 3 (by norm_num) (by norm_num)

/-- Entry `(4,0)` of `R(x)·U` is zero. -/
theorem ruv40 {K : Type} [Field K] [CharZero K] (x : K) :
    ruEntry 5 x (_compute_r 1) 4 0 = 0 :=
  ruvi0 x 4 (by norm_num) (by norm_num)

/-- Entry `(5,0)` of `R(x)·U` is zero. -/
theorem ruv50 {K : Type} [Field K] [CharZero K] (x : K) :
    ruEntry 5 x (_compute_r 1) 5 0 = 0 :=
  ruvi0 x 5 (by norm_num) (by norm_num)

/-- `R(x)·U` is lower triangular on the leading 6×6 block. -/
theorem ru_upper_zero {K : Type} [Field K] [CharZero K] (x : K) (i j : ℕ) (hij : i < j)
    (hj : j ≤ 5) : ruEntry 5 x (_compute_r 1) i j = 0 := by
  rcases Nat.lt_or_ge i 1 with h0 | h1
  · have : i = 0 := by omega
    subst this
    exact ruv0j x j (by omega) hj
  · rcases Nat.lt_or_ge i 2 with h0 | h2
    · have : i = 1 := by omega
      subst this
      exact ruv1j x j (by omega) hj
    · rcases Nat.lt_or_ge i 3 with h0 | h3
      · have : i = 2 := by omega
        subst this
        exact ruv2j x j (by omega) hj
      · rcases Nat.lt_or_ge i 4 with h0 | h4
        · have : i = 3 := by omega
          subst this
          exact ruv3j x j (by omega) hj
        · have hi4 : i = 4 := by omega
          have hj5 : j = 5 := by omega
          subst hi4
          subst hj5
          exact ruv45 x

/-- The full-range product identity: `(R(ρ)·U)·(R(1/ρ)·U)` restricted to the
6×6 block is the identity matrix. -/
theorem ru5_product (ρ : ℝ) (hρ : 0 < ρ) (i j : ℕ) (hi : i ≤ 5) (hj : j ≤ 5) :
    (∑ l ∈ Finset.range 6,
        ruEntry 5 ρ (_compute_r 1) i l * ruEntry 5 ρ⁻¹ (_compute_r 1) l j)
      = if i = j then 1 else 0 := by
  have hne : ρ ≠ 0 := ne_of_gt hρ
  interval_cases i <;> interval_cases j <;>
    · simp only [Finset.sum_range_succ, Finset.sum_range_zero,
        ruv00, ruv11, ruv21, ruv22, ruv31, ruv32, ruv33, ruv41, ruv42, ruv43,
        ruv44, ruv45, ruv51, ruv52, ruv53, ruv54, ruv55,
        ruv01, ruv02, ruv03, ruv04, ruv05, ruv12, ruv13, ruv14, ruv15,
        ruv23, ruv24, ruv25, ruv34, ruv35,
        ruv10, ruv20, ruv30, ruv40, ruv50]
      norm_num only [if_true, if_false]
      try field_simp
      try ring

/-- C5 counterexample: for `k = 1`, `ρ = 2`, entry `(0, 1)` of
`R(k,ρ)·R(k,1/ρ)` is `1/2`, not the identity's `0`: the claimed involution
fails without the `U` factors. -/
theorem rescaling_claim_counterexample :
    (∑ l ∈ Finset.range 2, _compute_r (2 : ℚ) 0 l * _compute_r ((1 : ℚ) / 2) l 1)
      = 1 / 2 ∧
    ¬ (∑ l ∈ Finset.range 2, _compute_r (2 : ℚ) 0 l * _compute_r ((1 : ℚ) / 2) l 1)
      = (if (0 : ℕ) = 1 then 1 else 0) := by
  have h : (∑ l ∈ Finset.range 2,
      _compute_r (2 : ℚ) 0 l * _compute_r ((1 : ℚ) / 2) l 1) = 1 / 2 := by
    simp only [Finset.sum_range_succ, Finset.sum_range_zero, cr0, cr1]
    norm_num
  refine ⟨h, ?_⟩
  rw [h]
  norm_num

/-- C5 amended: for every order `k ∈ [1, 5]` and factor `ρ > 0`, `U` is
`R(k, 1)`, and the product of the *applied* transforms,
`(R(k,ρ)·U) · (R(k,1/ρ)·U)`, is the identity on the leading
`(k+1) × (k+1)` block: history rescaling by `ρ` followed by `1/ρ` restores
every difference matrix. -/
theorem rescaling_involutive (k : ℕ) (hk1 : 1 ≤ k) (hk5 : k ≤ 5) (ρ : ℝ)
    (hρ : 0 < ρ) (i j : ℕ) (hi : i ≤ k) (hj : j ≤ k) :
    bdfInitU = _compute_r 1 ∧
    (∑ l ∈ Finset.range (k + 1),
        ruEntry k ρ (_compute_r 1) i l * ruEntry k ρ⁻¹ (_compute_r 1) l j)
      = if i = j then 1 else 0 := by
  refine ⟨rfl, ?_⟩
  have hstep : ∀ l ∈ Finset.range (k + 1),
      ruEntry k ρ (_compute_r 1) i l * ruEntry k ρ⁻¹ (_compute_r 1) l j
        = ruEntry 5 ρ (_compute_r 1) i l * ruEntry 5 ρ⁻¹ (_compute_r 1) l j := by
    intro l hl
    have hlk : l ≤ k := Nat.lt_succ_iff.mp (Finset.mem_range.mp hl)
    rw [ruEntry_eq_five ρ k i l hk5 hlk, ruEntry_eq_five ρ⁻¹ k l j hk5 hj]
  rw [Finset.sum_congr rfl hstep]
  rw [Finset.sum_subset (Finset.range_subset.mpr (by omega : k + 1 ≤ 6))
    (fun l hl hnot => by
      have hil : i < l := by
        simp only [Finset.mem_range] at hl hnot
        omega
      rw [ru_upper_zero ρ i l hil
        (by simp only [Finset.mem_range] at hl; omega), zero_mul])]
  exact ru5_product ρ hρ i j (le_trans hi hk5) (le_trans hj hk5)

/-- C5 witness: the involution at `k = 2`, `ρ = 2`, diagonal entry `(1, 1)`
and off-diagonal entry `(0, 2)`. -/
theorem rescaling_involutive_witness :
    ((∑ l ∈ Finset.range 3,
        ruEntry 2 (2 : ℝ) (_compute_r 1) 1 l * ruEntry 2 (2 : ℝ)⁻¹ (_compute_r 1) l 1)
      = if (1 : ℕ) = 1 then 1 else 0) ∧
    ((∑ l ∈ Finset.range 3,
        ruEntry 2 (2 : ℝ) (_compute_r 1) 0 l * ruEntry 2 (2 : ℝ)⁻¹ (_compute_r 1) l 2)
      = if (0 : ℕ) = 2 then 1 else 0) :=
  ⟨(rescaling_involutive 2 (by norm_num) (by norm_num) 2 (by norm_num) 1 1
      (by norm_num) (by norm_num)).2,
   (rescaling_involutive 2 (by norm_num) (by norm_num) 2 (by norm_num) 0 2
      (by norm_num) (by norm_num)).2⟩

theorem core_unchanged_refl (b : Bdf) : core_unchanged b b := ⟨rfl, rfl, rfl, rfl⟩

theorem core_unchanged_trans {a b c : Bdf} (h1 : core_unchanged a b)
    (h2 : core_unchanged b c) : core_unchanged a c :=
  ⟨h1.1.trans h2.1, h1.2.1.trans h2.2.1, h1.2.2.1.trans h2.2.2.1,
   h1.2.2.2.trans h2.2.2.2⟩

/-- `_update_step_size` rescales `h` and the difference matrices but leaves
`y`, `dy`, `t` and the order alone, also on its error path. -/
theorem _update_step_size_core (cfg : BdfProblem) (f : ℚ) (b : Bdf) :
    core_unchanged (_update_step_size cfg f b).1 b := by
  simp only [_update_step_size]
  split
  · exact ⟨rfl, rfl, rfl, rfl⟩
  · exact ⟨rfl, rfl, rfl, rfl⟩

/-- The sensitivity solves mutate only `s`, `dsg` and solver scratch. -/
theorem sensitivity_solve_go_core (cfg : BdfProblem) (o : Oracles) (att : ℕ) :
    ∀ (rem i : ℕ) (b : Bdf) (lastN : ℕ),
      core_unchanged (sensitivity_solve_go cfg o att rem i b lastN).1 b := by
  intro rem
  induction rem with
  | zero => intro i b lastN; exact core_unchanged_refl b
  | succ rem ih =>
    intro i b lastN
    simp only [sensitivity_solve_go]
    cases h : o.sens_solve att i with
    | none => exact core_unchanged_refl _
    | some v =>
      obtain ⟨s_new, niter⟩ := v
      refine core_unchanged_trans (ih _ _ _) ?_
      split
      · exact ⟨rfl, rfl, rfl, rfl⟩
      · exact ⟨rfl, rfl, rfl, rfl⟩

/-- The convergence-failure branch leaves `y`, `dy`, `t`, order alone. -/
theorem step_attempt_fail_core (cfg : BdfProblem) (att : ℕ) (cf : Bool)
    (b : Bdf) : core_unchanged (step_attempt_fail cfg att cf b).solver b := by
  simp only [step_attempt_fail]
  split
  · split
    case _ b2 e heq =>
      have h2 : b2 = (_update_step_size cfg (3 / 10)
          { b with statistics := { b.statistics with
              number_of_nonlinear_solver_fails :=
                b.statistics.number_of_nonlinear_solver_fails + 1 } }).1 := by
        rw [heq]
      simp only [IterOut.solver]
      rw [h2]
      exact core_unchanged_trans (_update_step_size_core _ _ _) ⟨rfl, rfl, rfl, rfl⟩
    case _ b2 heq =>
      have h2 : b2 = (_update_step_size cfg (3 / 10)
          { b with statistics := { b.statistics with
              number_of_nonlinear_solver_fails :=
                b.statistics.number_of_nonlinear_solver_fails + 1 } }).1 := by
        rw [heq]
      simp only [IterOut.solver, _predict_forward]
      rw [h2]
      exact core_unchanged_trans (_update_step_size_core _ _ _) ⟨rfl, rfl, rfl, rfl⟩
  · exact ⟨rfl, rfl, rfl, rfl⟩

/-- The output stage leaves `y`, `dy`, `t`, order alone. -/
theorem out_stage_core (cfg : BdfProblem) (o : Oracles) (b2 : Bdf) :
    core_unchanged (out_stage cfg o b2) b2 := by
  simp only [out_stage]
  split
  · exact ⟨rfl, rfl, rfl, rfl⟩
  · exact core_unchanged_refl b2

/-- The sensitivity stage leaves `y`, `dy`, `t`, order alone. -/
theorem sens_stage_core (cfg : BdfProblem) (o : Oracles) (att : ℕ) (b3 : Bdf)
    (niter : ℕ) : core_unchanged (sens_stage cfg o att b3 niter).1 b3 := by
  simp only [sens_stage]
  split
  · exact sensitivity_solve_go_core cfg o att _ _ _ _
  · exact core_unchanged_refl b3

/-- The error test and rejection handling leave `y`, `dy`, `t`, order alone. -/
theorem error_test_and_reject_core (cfg : BdfProblem) (o : Oracles)
    (order : ℕ) (cf : Bool) (att : ℕ) (b4 : Bdf) (lastNiter : ℕ) :
    core_unchanged (error_test_and_reject cfg o order cf att b4 lastNiter).solver b4 := by
  simp only [error_test_and_reject]
  split
  · exact core_unchanged_refl b4
  · split
    case _ b5 e heq =>
      have h5 := congrArg Prod.fst heq
      simp only [IterOut.solver]
      rw [show b5 = Prod.fst (b5, some e) from rfl, ← h5]
      exact _update_step_size_core _ _ _
    case _ b5 heq =>
      have h5 := congrArg Prod.fst heq
      simp only [IterOut.solver]
      have hcore : core_unchanged b5 b4 := by
        rw [show b5 = Prod.fst (b5, (none : Option SolverError)) from rfl, ← h5]
        exact _update_step_size_core _ _ _
      exact core_unchanged_trans ⟨rfl, rfl, rfl, rfl⟩ hcore

/-- The successful-solve path leaves `y`, `dy`, `t`, order alone. -/
theorem step_attempt_solved_core (cfg : BdfProblem) (o : Oracles) (att : ℕ)
    (cf : Bool) (b1 : Bdf) (sol : Vec) (niter : ℕ) :
    core_unchanged (step_attempt_solved cfg o att cf b1 sol niter).solver b1 := by
  simp only [step_attempt_solved]
  have hstage : core_unchanged
      (sens_stage cfg o att (out_stage cfg o { b1 with y_delta := vsub sol b1.y_predict }) niter).1 b1 := by
    refine core_unchanged_trans (sens_stage_core cfg o att _ niter) ?_
    exact core_unchanged_trans (out_stage_core cfg o _) ⟨rfl, rfl, rfl, rfl⟩
  cases hsr : sens_stage cfg o att
      (out_stage cfg o { b1 with y_delta := vsub sol b1.y_predict }) niter with
  | mk b4 rest =>
    rw [hsr] at hstage
    obtain ⟨ok, lastN⟩ := rest
    cases ok with
    | false =>
      exact core_unchanged_trans (step_attempt_fail_core cfg att cf b4) hstage
    | true =>
      exact core_unchanged_trans (error_test_and_reject_core cfg o _ cf att b4 lastN)
        hstage

/-- One iteration of the retry loop leaves `y`, `dy`, `t`, order alone,
whichever way it ends. -/
theorem step_attempt_core (cfg : BdfProblem) (o : Oracles) (att : ℕ) (cf : Bool)
    (b : Bdf) : core_unchanged (step_attempt cfg o att cf b).solver b := by
  simp only [step_attempt]
  cases hs : (o.solve att).1 with
  | none =>
    exact core_unchanged_trans (step_attempt_fail_core cfg att cf _)
      ⟨rfl, rfl, rfl, rfl⟩
  | some sol =>
    exact core_unchanged_trans (step_attempt_solved_core cfg o att cf _ sol _)
      ⟨rfl, rfl, rfl, rfl⟩

/-- The whole retry loop leaves `y`, `dy`, `t`, order alone. -/
theorem step_attempt_loop_core (cfg : BdfProblem) (o : Oracles) :
    ∀ (fuel att : ℕ) (cf : Bool) (b : Bdf),
      core_unchanged (step_attempt_loop cfg o fuel att cf b).1 b := by
  intro fuel
  induction fuel with
  | zero => intro att cf b; exact core_unchanged_refl b
  | succ fuel ih =>
    intro att cf b
    simp only [step_attempt_loop]
    have h := step_attempt_core cfg o att cf b
    cases hs : step_attempt cfg o att cf b with
    | retry att2 cf2 b2 =>
      rw [hs] at h
      exact core_unchanged_trans (ih att2 cf2 b2) h
    | done b2 en sf =>
      rw [hs] at h
      exact h
    | fail b2 e =>
      rw [hs] at h
      exact h

/-- C7 amended: when the retry loop inside `step` raises an error (in
particular `StepSizeTooSmall` from `_update_step_size`), `step` returns that
error, and the final solver's `y`, `dy`, `t` and order equal their values at
entry to the loop — the state produced by `step`'s prologue, which for a
modified state has itself already re-initialised the history to first order.
The step size and the difference matrices, in contrast, may already have been
rescaled, as the counterexample shows; no preservation relative to call entry
holds. -/
theorem step_loop_error_core (cfg : BdfProblem) (o : Oracles) (fuel : ℕ)
    (b : Bdf) (e : SolverError)
    (hprep : (step_prepare cfg b).2 = none)
    (hloop : (step_attempt_loop cfg o fuel 0 false
      (_predict_forward (step_prepare cfg b).1)).2 = LoopRes.failed e) :
    (step cfg o fuel b).2 = StepRes.err e ∧
    core_unchanged (step cfg o fuel b).1
      (_predict_forward (step_prepare cfg b).1) := by
  simp only [step]
  cases hp : step_prepare cfg b with
  | mk b1 oe =>
    rw [hp] at hprep hloop
    have hoe : oe = none := hprep
    subst hoe
    dsimp only at hloop ⊢
    have hcore := step_attempt_loop_core cfg o fuel 0 false (_predict_forward b1)
    cases hl : step_attempt_loop cfg o fuel 0 false (_predict_forward b1) with
    | mk b3 lr =>
      rw [hl] at hloop hcore
      have hlr : lr = LoopRes.failed e := hloop
      subst hlr
      exact ⟨rfl, hcore⟩

/-- C7 counterexample: on a state with `h = 10⁻³² = MIN_TIMESTEP` and a Newton
solve that keeps failing, `step()` returns the `StepSizeTooSmall` error, yet
the returned solver's step size has already been rescaled to `0.3·10⁻³²`; and
on the same state flagged as modified at order 3, the error comes back with
the order already reset to 1 by the prologue's `initialise_to_first_order`:
an error return does not precede all mutation of the solver state. -/
theorem step_error_after_mutation :
    (step cfgW oraclesFail 2 bdfTiny).2 = StepRes.err SolverError.StepSizeTooSmall ∧
    (step cfgW oraclesFail 2 bdfTiny).1.state.h = 3 / 10 ^ 33 ∧
    bdfTiny.state.h = 1 / 10 ^ 32 ∧
    (3 / 10 ^ 33 : ℚ) ≠ 1 / 10 ^ 32 ∧
    (step cfgW oraclesFail 2 bdfMod3).2 = StepRes.err SolverError.StepSizeTooSmall ∧
    (step cfgW oraclesFail 2 bdfMod3).1.state.order = 1 ∧
    bdfMod3.state.order = 3 := by
  refine ⟨?_, ?_, ?_, ?_, ?_, ?_, ?_⟩
  · with_unfolding_all rfl
  · with_unfolding_all rfl
  · with_unfolding_all rfl
  · norm_num
  · with_unfolding_all rfl
  · with_unfolding_all rfl
  · with_unfolding_all rfl

/-- C7 witness: the preservation statement applied to the concrete failing
run of the counterexample. -/
theorem step_loop_error_core_witness :
    (step cfgW oraclesFail 2 bdfTiny).2 = StepRes.err SolverError.StepSizeTooSmall ∧
    core_unchanged (step cfgW oraclesFail 2 bdfTiny).1
      (_predict_forward (step_prepare cfgW bdfTiny).1) :=
  step_loop_error_core cfgW oraclesFail 2 bdfTiny SolverError.StepSizeTooSmall
    (by with_unfolding_all rfl) (by with_unfolding_all rfl)

/-- The failure path never accepts a step. -/
theorem step_attempt_fail_ne_done (cfg : BdfProblem) (att : ℕ) (cf : Bool)
    (b b2 : Bdf) (en sf : ℚ) :
    step_attempt_fail cfg att cf b ≠ IterOut.done b2 en sf := by
  intro hcon
  simp only [step_attempt_fail] at hcon
  split at hcon
  · split at hcon <;> cases hcon
  · cases hcon

/-- A `done` outcome of the error test carries exactly the `error_control`
norm of its solver, and it passed the test. -/
theorem error_test_done (cfg : BdfProblem) (o : Oracles) (order : ℕ)
    (cf : Bool) (att : ℕ) (b4 : Bdf) (lastNiter : ℕ) (b2 : Bdf) (en sf : ℚ)
    (h : error_test_and_reject cfg o order cf att b4 lastNiter
      = IterOut.done b2 en sf) :
    b2 = b4 ∧ en = error_control cfg b4 ∧ en ≤ 1 := by
  simp only [error_test_and_reject] at h
  split at h
  case _ hguard =>
    cases h
    exact ⟨rfl, rfl, hguard⟩
  case _ =>
    split at h <;> cases h

/-- A `done` outcome of the solved path carries the `error_control` norm of
its final solver, and it is at most 1. -/
theorem step_attempt_solved_done (cfg : BdfProblem) (o : Oracles) (att : ℕ)
    (cf : Bool) (b1 : Bdf) (sol : Vec) (niter : ℕ) (b2 : Bdf) (en sf : ℚ)
    (h : step_attempt_solved cfg o att cf b1 sol niter = IterOut.done b2 en sf) :
    en = error_control cfg b2 ∧ en ≤ 1 := by
  simp only [step_attempt_solved] at h
  rcases hsr : sens_stage cfg o att
      (out_stage cfg o { b1 with y_delta := vsub sol b1.y_predict }) niter
    with ⟨b4, ok, lastN⟩
  rw [hsr] at h
  cases ok with
  | false => exact absurd h (step_attempt_fail_ne_done _ _ _ _ _ _ _)
  | true =>
    obtain ⟨he1, he2, he3⟩ := error_test_done _ _ _ _ _ _ _ _ _ _ h
    rw [he1]
    exact ⟨he2, he3⟩

/-- A `done` outcome of one loop iteration carries exactly the weighted error
norm computed by `error_control`, and it passed the error test. -/
theorem step_attempt_done_le_one (cfg : BdfProblem) (o : Oracles) (att : ℕ)
    (cf : Bool) (b b2 : Bdf) (en sf : ℚ)
    (h : step_attempt cfg o att cf b = IterOut.done b2 en sf) :
    en = error_control cfg b2 ∧ en ≤ 1 := by
  simp only [step_attempt] at h
  cases hs : (o.solve att).1 with
  | none =>
    rw [hs] at h
    exact absurd h (step_attempt_fail_ne_done _ _ _ _ _ _ _)
  | some sol =>
    rw [hs] at h
    exact step_attempt_solved_done _ _ _ _ _ sol _ _ _ _ h

/-- An accepted run of the retry loop returns the `error_control` norm of its
final solver, and it is at most 1. -/
theorem step_attempt_loop_accepted_le_one (cfg : BdfProblem) (o : Oracles) :
    ∀ (fuel att : ℕ) (cf : Bool) (b : Bdf) (en sf : ℚ),
      (step_attempt_loop cfg o fuel att cf b).2 = LoopRes.accepted en sf →
      en = error_control cfg (step_attempt_loop cfg o fuel att cf b).1 ∧ en ≤ 1 := by
  intro fuel
  induction fuel with
  | zero => intro att cf b en sf h; cases h
  | succ fuel ih =>
    intro att cf b en sf h
    simp only [step_attempt_loop] at h ⊢
    cases hs : step_attempt cfg o att cf b with
    | retry att2 cf2 b2 =>
      rw [hs] at h
      exact ih att2 cf2 b2 en sf h
    | done b3 en2 sf2 =>
      rw [hs] at h
      have h2 : LoopRes.accepted en2 sf2 = LoopRes.accepted en sf := h
      cases h2
      have := step_attempt_done_le_one cfg o att cf b b3 _ _ hs
      exact ⟨this.1, this.2⟩
    | fail b3 e =>
      rw [hs] at h
      exact absurd (show LoopRes.failed e = LoopRes.accepted en sf from h)
        (by intro hc; cases hc)

/-- C1: whenever `step()` returns `Ok`, the retry loop accepted a step, and
the accepted error norm — the weighted norm that `error_control` computes
from the final correction (and output/sensitivity deltas) with the problem's
`rtol`/`atol` and per-channel tolerances — is at most 1. -/
theorem step_ok_error_le_one (cfg : BdfProblem) (o : Oracles) (fuel : ℕ)
    (b : Bdf) (r : StopReason)
    (h : (step cfg o fuel b).2 = StepRes.ok r) :
    ∃ (b1 : Bdf) (en sf : ℚ),
      step_attempt_loop cfg o fuel 0 false
          (_predict_forward (step_prepare cfg b).1) = (b1, LoopRes.accepted en sf) ∧
      en = error_control cfg b1 ∧ en ≤ 1 := by
  simp only [step] at h
  cases hp : step_prepare cfg b with
  | mk b1 oe =>
    rw [hp] at h
    cases oe with
    | some e => cases h
    | none =>
      dsimp only at h
      cases hl : step_attempt_loop cfg o fuel 0 false (_predict_forward b1) with
      | mk b3 lr =>
        rw [hl] at h
        cases lr with
        | failed e => cases h
        | accepted en sf =>
          refine ⟨b3, en, sf, rfl, ?_, ?_⟩
          · have := step_attempt_loop_accepted_le_one cfg o fuel 0 false
              (_predict_forward b1) en sf (by rw [hl])
            rw [hl] at this
            exact this.1
          · exact (step_attempt_loop_accepted_le_one cfg o fuel 0 false
              (_predict_forward b1) en sf (by rw [hl])).2

/-- C1 witness: a concrete one-attempt run in which the Newton solve returns
the prediction itself, the error norm is 0, and `step` succeeds. -/
theorem step_ok_error_le_one_witness :
    ∃ (b1 : Bdf) (en sf : ℚ),
      step_attempt_loop cfgW oraclesOk 1 0 false
          (_predict_forward (step_prepare cfgW bdfW).1) = (b1, LoopRes.accepted en sf) ∧
      en = error_control cfgW b1 ∧ en ≤ 1 :=
  step_ok_error_le_one cfgW oraclesOk 1 bdfW StopReason.InternalTimestep
    (by with_unfolding_all rfl)

end Diffsol
